import Mathlib

/-!
# CREATE TABLE / CREATE INDEX executor (`src/executor/create_executor.cpp`)

A shallow embedding of `CreateExecutor::DExecute`.  The executor talks to the
catalog singleton and to the transaction handle; neither is defined in
`create_executor.cpp`, so the executor is embedded over an explicit catalog
interface (`Catalog`) whose operations are those called in the source, and
every call the executor makes is recorded in a trace of `Event`s.

* the catalog is process-wide mutable state: it is passed explicitly as a
  value of type `σ` and threaded through the calls in program order;
* `DataTable *` and `Database *` pointers are handles of type `τ` and `δ`;
* a C++ exception leaves every mutation made so far in place, so an
  execution that raises still reports the catalog, the transaction and the
  trace reached at the point of failure (`Outcome`);
* the catalog receives the transaction pointer but the result slot is written
  by the executor only (`SetResult`), so catalog operations act on `σ` alone;
* `int count` is a `Nat`: it starts at 1 and grows by one per auto-indexed
  key, so it stays below `2^31` for any key list that fits in memory.
-/

namespace Peloton

/-- Modelled from the spec: the enumeration `ResultType` lives in
`type/types.h`, which is not part of the sources.  The executor distinguishes
`SUCCESS`, `FAILURE` and every other value (logged through
`ResultTypeToString`); `OTHER code` stands for any other enumerator. -/
inductive ResultType where
  | SUCCESS
  | FAILURE
  | OTHER (code : Nat)
  deriving DecidableEq, Repr

/-- Modelled from the spec: the enumeration `FKConstrActionType` lives in
`type/types.h`; the spec lists the referential actions NO_ACTION, CASCADE,
RESTRICT, SET_NULL and SET_DEFAULT. -/
inductive FKConstrActionType where
  | NOACTION
  | RESTRICT
  | CASCADE
  | SETNULL
  | SETDEFAULT
  deriving DecidableEq, Repr

/-- Modelled from the spec: the enumeration `IndexType` lives in
`type/types.h`; the executor names `BWTREE`, any other kind is `OTHER code`. -/
inductive IndexType where
  | BWTREE
  | OTHER (code : Nat)
  deriving DecidableEq, Repr

/-- Modelled from the spec: the enumeration `CreateType` lives in
`type/types.h`; the executor tests for `TABLE` and for `INDEX`, any other
statement kind is `OTHER code`. -/
inductive CreateType where
  | TABLE
  | INDEX
  | OTHER (code : Nat)
  deriving DecidableEq, Repr

/-- Modelled from the spec: the constant `DEFAULT_DB_NAME` is declared in a
header that is not part of the sources; it is the name of the fixed default
database. -/
def DEFAULT_DB_NAME : String := "default_database"

/-- A column definition of a schema (name and type name). -/
structure Column where
  name : String
  type_name : String
  deriving DecidableEq, Repr

/-- The class `catalog::Schema`: an ordered list of column definitions. -/
structure Schema where
  columns : List Column
  deriving DecidableEq, Repr

/-- The class `catalog::ForeignKey`, with the accessors the executor reads:
`GetSinkTableName`, `GetFKColumnNames`, `GetUpdateAction`, `GetDeleteAction`. -/
structure ForeignKey where
  sink_table_name : String
  fk_column_names : List String
  update_action : FKConstrActionType
  delete_action : FKConstrActionType
  deriving DecidableEq, Repr

/-- The plan node `planner::CreatePlan`, with the accessors the executor
reads.  `foreign_keys` is `none` when `GetForeignKeys()` is the null
pointer. -/
structure CreatePlan where
  create_type : CreateType
  database_name : String
  table_name : String
  schema : Schema
  foreign_keys : Option (List ForeignKey)
  index_name : String
  unique_flag : Bool
  index_type : IndexType
  index_attrs : List String
  deriving DecidableEq, Repr

/-- The transaction handle `concurrency::Transaction`, reduced to the result
slot behind `GetResult` / `SetResult`. -/
structure Transaction where
  result : ResultType
  deriving DecidableEq, Repr

/-- The setter `Transaction::SetResult`. -/
def Transaction.SetResult (_txn : Transaction) (r : ResultType) : Transaction :=
  ⟨r⟩

/-- The getter `Transaction::GetResult`. -/
def Transaction.GetResult (txn : Transaction) : ResultType :=
  txn.result

/-- The catalog interface consumed by the executor.  `σ` is the catalog
state, `δ` a database handle, `τ` a table handle.  `CreateTable` and
`CreateIndex` return a `ResultType` together with the new state; a lookup
answers `none` when the object is absent (the call then fails);
`GetName` reads the name stored in the table object. -/
structure Catalog (σ δ τ : Type) where
  CreateTable : String → String → Schema → σ → ResultType × σ
  CreateIndex : String → String → List String → String → Bool → IndexType → σ → ResultType × σ
  GetDatabaseWithName : String → σ → Option δ
  GetTableWithName : δ → String → σ → Option τ
  AddForeignKey : τ → ForeignKey → σ → σ
  RegisterForeignKeySource : τ → String → σ → σ
  GetName : τ → String

/-- One call made by the executor, with its arguments and, for the calls
whose answer the executor can observe, the answer. -/
inductive Event (τ : Type) where
  | CreateTable (database_name table_name : String) (schema : Schema) (result : ResultType)
  | SetResult (result : ResultType)
  | GetDatabaseWithName (database_name : String) (found : Bool)
  | GetTableWithName (table_name : String) (found : Bool)
  | AddForeignKey (table : τ) (fk : ForeignKey)
  | RegisterForeignKeySource (table : τ) (source_table_name : String)
  | CreateIndex (database_name table_name : String) (index_attrs : List String)
      (index_name : String) (unique_keys : Bool) (index_type : IndexType) (result : ResultType)
  deriving DecidableEq, Repr

/-- Modelled from the spec: the exception classes are not part of the
sources.  A failed lookup of a database or table raises a
`CatalogLookupError` carrying the name that was not found. -/
inductive ExecError where
  | CatalogLookupError (name : String)
  deriving DecidableEq, Repr

deriving instance DecidableEq for Except

/-- What is left when a block of the executor stops: the pending exception
(if any), the catalog, the transaction and the calls made, in order. -/
structure Step (σ τ : Type) where
  error : Option ExecError
  catalog : σ
  txn : Transaction
  trace : List (Event τ)

/-- What is left when `DExecute` stops: its return value or the exception it
raised, the catalog, the transaction and the calls made, in order. -/
structure Outcome (σ τ : Type) where
  ret : Except ExecError Bool
  catalog : σ
  txn : Transaction
  trace : List (Event τ)

namespace CreateExecutor

variable {σ δ τ : Type}

/-- The expression `catalog->GetDatabaseWithName(database_name)
->GetTableWithName(table_name)` (lines 61-62 and 69-70): the table handle,
or the name whose lookup failed, and the lookups made. -/
def lookupTable (cat : Catalog σ δ τ) (database_name table_name : String) (s : σ) :
    Except ExecError τ × List (Event τ) :=
  match cat.GetDatabaseWithName database_name s with
  | none =>
    (.error (.CatalogLookupError database_name), [.GetDatabaseWithName database_name false])
  | some db =>
    match cat.GetTableWithName db table_name s with
    | none =>
      (.error (.CatalogLookupError table_name),
        [.GetDatabaseWithName database_name true, .GetTableWithName table_name false])
    | some t =>
      (.ok t, [.GetDatabaseWithName database_name true, .GetTableWithName table_name true])

/-- The condition of line 74-75: the key needs a supporting index. -/
def needsIndex (fk : ForeignKey) : Bool :=
  fk.update_action != FKConstrActionType.NOACTION ||
    fk.delete_action != FKConstrActionType.NOACTION

/-- The expression of lines 77-78:
`source_table->GetName() + "_FK_" + std::to_string(count)`. -/
def indexName (source_name : String) (count : Nat) : String :=
  source_name ++ "_FK_" ++ toString count

/-- The loop of lines 64-88 over the declared foreign keys, started with the
counter `count`: the pending exception (if a lookup failed), the catalog
reached and the calls made. -/
def processForeignKeys (cat : Catalog σ δ τ) (database_name table_name : String)
    (source_table : τ) : List ForeignKey → Nat → σ → Option ExecError × σ × List (Event τ)
  | [], _, s => (none, s, [])
  | fk :: rest, count, s =>
    -- source_table->AddForeignKey(new catalog::ForeignKey(fk));
    let s1 := cat.AddForeignKey source_table fk s
    -- auto sink_table = catalog->GetDatabaseWithName(...)->GetTableWithName(sink_table_name);
    match lookupTable cat database_name fk.sink_table_name s1 with
    | (.error e, lookups) =>
      (some e, s1, Event.AddForeignKey source_table fk :: lookups)
    | (.ok sink_table, lookups) =>
      -- sink_table->RegisterForeignKeySource(table_name);
      let s2 := cat.RegisterForeignKeySource sink_table table_name s1
      if needsIndex fk then
        let source_col_names := fk.fk_column_names
        let index_name := indexName (cat.GetName source_table) count
        let r := cat.CreateIndex database_name (cat.GetName source_table) source_col_names
          index_name false IndexType.BWTREE s2
        let out := processForeignKeys cat database_name table_name source_table rest
          (count + 1) r.2
        (out.1, out.2.1,
          Event.AddForeignKey source_table fk :: lookups ++
            (Event.RegisterForeignKeySource sink_table table_name ::
              Event.CreateIndex database_name (cat.GetName source_table) source_col_names
                index_name false IndexType.BWTREE r.1 :: out.2.2))
      else
        let out := processForeignKeys cat database_name table_name source_table rest count s2
        (out.1, out.2.1,
          Event.AddForeignKey source_table fk :: lookups ++
            (Event.RegisterForeignKeySource sink_table table_name :: out.2.2))

/-- The block of lines 46-96, entered when the statement creates a table. -/
def createTableBranch (cat : Catalog σ δ τ) (node : CreatePlan) (s : σ)
    (current_txn : Transaction) : Step σ τ :=
  let table_name := node.table_name
  let database_name := node.database_name
  let schema := node.schema
  let r := cat.CreateTable database_name table_name schema s
  let result := r.1
  let txn1 := current_txn.SetResult result
  let head : List (Event τ) :=
    [.CreateTable database_name table_name schema result, .SetResult result]
  if txn1.GetResult = ResultType.SUCCESS then
    match node.foreign_keys with
    | none => ⟨none, r.2, txn1, head⟩
    | some fks =>
      match lookupTable cat database_name table_name r.2 with
      | (.error e, lookups) => ⟨some e, r.2, txn1, head ++ lookups⟩
      | (.ok source_table, lookups) =>
        let out := processForeignKeys cat database_name table_name source_table fks 1 r.2
        ⟨out.1, out.2.1, txn1, head ++ lookups ++ out.2.2⟩
  else if txn1.GetResult = ResultType.FAILURE then
    ⟨none, r.2, txn1, head⟩
  else
    ⟨none, r.2, txn1, head⟩

/-- The block of lines 99-120, entered when the statement creates an index. -/
def createIndexBranch (cat : Catalog σ δ τ) (node : CreatePlan) (s : σ)
    (current_txn : Transaction) : Step σ τ :=
  let table_name := node.table_name
  let index_name := node.index_name
  let unique_flag := node.unique_flag
  let index_type := node.index_type
  let index_attrs := node.index_attrs
  let r := cat.CreateIndex DEFAULT_DB_NAME table_name index_attrs index_name unique_flag
    index_type s
  let result := r.1
  let txn1 := current_txn.SetResult result
  ⟨none, r.2, txn1,
    [.CreateIndex DEFAULT_DB_NAME table_name index_attrs index_name unique_flag index_type
        result,
      .SetResult result]⟩

/-- The method `CreateExecutor::DExecute` (lines 40-122), run on the plan
`node` with the catalog in state `s` and the transaction `current_txn`. -/
def DExecute (cat : Catalog σ δ τ) (node : CreatePlan) (s : σ) (current_txn : Transaction) :
    Outcome σ τ :=
  let o1 : Step σ τ :=
    if node.create_type = CreateType.TABLE then createTableBranch cat node s current_txn
    else ⟨none, s, current_txn, []⟩
  match o1.error with
  | some e => ⟨.error e, o1.catalog, o1.txn, o1.trace⟩
  | none =>
    let o2 : Step σ τ :=
      if node.create_type = CreateType.INDEX then
        createIndexBranch cat node o1.catalog o1.txn
      else ⟨none, o1.catalog, o1.txn, []⟩
    ⟨.ok false, o2.catalog, o2.txn, o1.trace ++ o2.trace⟩

/-- The value of a decimal digit character. -/
def digitValue (c : Char) : Nat := c.toNat - 48

/-- The number written by a list of decimal digits, most significant first. -/
def decimalValue (cs : List Char) : Nat :=
  cs.foldl (fun a c => 10 * a + digitValue c) 0

/-- The foreign keys declared by the request: those of the list behind
`GetForeignKeys()`, none when the pointer is null. -/
def declaredKeys (node : CreatePlan) : List ForeignKey :=
  node.foreign_keys.getD []

/-- The values passed to `SetResult`, in the order of the calls. -/
def setResultWrites : List (Event τ) → List ResultType
  | [] => []
  | .SetResult r :: rest => r :: setResultWrites rest
  | _ :: rest => setResultWrites rest

/-- The arguments of one `CreateIndex` call. -/
structure IndexCall where
  database_name : String
  table_name : String
  index_attrs : List String
  index_name : String
  unique_keys : Bool
  index_type : IndexType
  deriving DecidableEq, Repr

/-- The `CreateIndex` calls of a trace, in the order they are issued. -/
def indexCalls : List (Event τ) → List IndexCall
  | [] => []
  | .CreateIndex d t a n u k _ :: rest => ⟨d, t, a, n, u, k⟩ :: indexCalls rest
  | _ :: rest => indexCalls rest

/-- The catalog `cat` with every result value returned by `CreateIndex`
replaced by its image under `f`; the effect on the catalog state is kept. -/
def withIndexResult (cat : Catalog σ δ τ) (f : ResultType → ResultType) : Catalog σ δ τ :=
  { cat with
    CreateIndex := fun d t a n u k s =>
      (f (cat.CreateIndex d t a n u k s).1, (cat.CreateIndex d t a n u k s).2) }

end CreateExecutor

/-! ## A catalog modelled from the specification

The catalog, the databases and the tables are implemented outside
`create_executor.cpp`.  The definitions below follow the data model of the
specification (§3, §4.2, §6, §8). -/

namespace SpecCatalog

/-- Modelled from the spec: an index registered on a table; the index class
is not part of the sources.  It keeps the name, the ordered attribute list,
the uniqueness flag and the kind given to `CreateIndex`. -/
structure IndexInfo where
  index_name : String
  index_attrs : List String
  unique_keys : Bool
  index_type : IndexType
  deriving DecidableEq, Repr

/-- Modelled from the spec: the class `storage::DataTable` is not part of the
sources.  A table has a name, the name of its owning database, a schema, its
outgoing foreign-key records (one entry per attached record, in attachment
order), the set of names of the tables registered as its foreign-key sources
(kept without repetition) and its indexes. -/
structure DataTable where
  database_name : String
  name : String
  schema : Schema
  foreign_keys : List ForeignKey
  foreign_key_sources : List String
  indexes : List IndexInfo
  deriving DecidableEq, Repr

/-- Modelled from the spec: the catalog registry is not part of the sources.
It holds the names of the databases and the tables of all databases. -/
structure State where
  databases : List String
  tables : List DataTable
  deriving DecidableEq, Repr

/-- A handle on a table object: its database and its name. -/
structure TableRef where
  database_name : String
  name : String
  deriving DecidableEq, Repr

/-- Whether the table `t` is the one named `name` in database `database_name`. -/
def isTable (database_name name : String) (t : DataTable) : Bool :=
  t.database_name = database_name && t.name = name

/-- The table named `name` of database `database_name`, if there is one. -/
def findTable (database_name name : String) (s : State) : Option DataTable :=
  s.tables.find? (isTable database_name name)

/-- Apply `f` to the table named `name` of database `database_name` (the one
`findTable` answers), leaving every other table as it is. -/
def modifyFirst (database_name name : String) (f : DataTable → DataTable) :
    List DataTable → List DataTable
  | [] => []
  | t :: rest =>
    if isTable database_name name t then f t :: rest
    else t :: modifyFirst database_name name f rest

/-- Add a name to a set of names kept as a list without repetition. -/
def insertName (name : String) (names : List String) : List String :=
  if name ∈ names then names else names ++ [name]

/-- Modelled from the spec: `Catalog::CreateTable` is not part of the sources.
The call fails when the database is absent, when a table of that name exists
(P6) or when the schema is empty; otherwise the table is added, with no
foreign key, no registered source and no index, and the call succeeds. -/
def CreateTable (database_name table_name : String) (schema : Schema) (s : State) :
    ResultType × State :=
  if database_name ∉ s.databases then (ResultType.FAILURE, s)
  else if (findTable database_name table_name s).isSome then (ResultType.FAILURE, s)
  else if schema.columns = [] then (ResultType.FAILURE, s)
  else
    (ResultType.SUCCESS,
      { s with tables := s.tables ++ [⟨database_name, table_name, schema, [], [], []⟩] })

/-- Modelled from the spec: `Catalog::CreateIndex` is not part of the sources.
The call fails when the table is absent (P5); otherwise the index is added to
the table and the call succeeds. -/
def CreateIndex (database_name table_name : String) (index_attrs : List String)
    (index_name : String) (unique_keys : Bool) (index_type : IndexType) (s : State) :
    ResultType × State :=
  if (findTable database_name table_name s).isSome then
    (ResultType.SUCCESS,
      { s with
        tables := modifyFirst database_name table_name
          (fun t => { t with
            indexes := t.indexes ++ [⟨index_name, index_attrs, unique_keys, index_type⟩] })
          s.tables })
  else (ResultType.FAILURE, s)

/-- Modelled from the spec: `Catalog::GetDatabaseWithName` is not part of the
sources; the lookup fails when no database has that name. -/
def GetDatabaseWithName (database_name : String) (s : State) : Option String :=
  if database_name ∈ s.databases then some database_name else none

/-- Modelled from the spec: `Database::GetTableWithName` is not part of the
sources; the lookup fails when the database has no table of that name. -/
def GetTableWithName (db : String) (table_name : String) (s : State) : Option TableRef :=
  (findTable db table_name s).map (fun _ => ⟨db, table_name⟩)

/-- Modelled from the spec: `DataTable::AddForeignKey` is not part of the
sources; the record is attached to the table's outgoing constraints. -/
def AddForeignKey (table : TableRef) (fk : ForeignKey) (s : State) : State :=
  { s with
    tables := modifyFirst table.database_name table.name
      (fun t => { t with foreign_keys := t.foreign_keys ++ [fk] }) s.tables }

/-- Modelled from the spec: `DataTable::RegisterForeignKeySource` is not part
of the sources; the name is added to the table's set of registered sources. -/
def RegisterForeignKeySource (table : TableRef) (source_table_name : String) (s : State) :
    State :=
  { s with
    tables := modifyFirst table.database_name table.name
      (fun t => { t with
        foreign_key_sources := insertName source_table_name t.foreign_key_sources })
      s.tables }

/-- Modelled from the spec: the catalog of the specification, as an
implementation of the interface the executor consumes. -/
def specCatalog : Catalog State String TableRef where
  CreateTable := CreateTable
  CreateIndex := CreateIndex
  GetDatabaseWithName := GetDatabaseWithName
  GetTableWithName := GetTableWithName
  AddForeignKey := AddForeignKey
  RegisterForeignKeySource := RegisterForeignKeySource
  GetName := TableRef.name

/-- The outgoing foreign-key records of a table, if the table exists. -/
def foreignKeysOf (database_name name : String) (s : State) : Option (List ForeignKey) :=
  (findTable database_name name s).map DataTable.foreign_keys

/-- The registered foreign-key sources of a table, if the table exists. -/
def sourcesOf (database_name name : String) (s : State) : Option (List String) :=
  (findTable database_name name s).map DataTable.foreign_key_sources

/-- The indexes of a table, if the table exists. -/
def indexesOf (database_name name : String) (s : State) : Option (List IndexInfo) :=
  (findTable database_name name s).map DataTable.indexes

/-- Whether a table of that name exists in the database. -/
def tableExists (database_name name : String) (s : State) : Bool :=
  (findTable database_name name s).isSome

/-- The indexes the foreign-key policy of §4.2 asks for on table
`table_name`: one non-unique index per key that has a non-NO_ACTION action,
over the key's columns, named with the ordinals from `count` on. -/
def autoIndexes (table_name : String) (count : Nat) (fks : List ForeignKey) : List IndexInfo :=
  ((fks.filter CreateExecutor.needsIndex).enumFrom count).map
    (fun p => ⟨CreateExecutor.indexName table_name p.1, p.2.fk_column_names, false,
      IndexType.BWTREE⟩)

/-- The catalog after one round of the foreign-key loop on key `fk` whose
sink resolves: the record is attached to the source table, the source name is
registered with the sink table and, if the key needs one, the index is
created. -/
def stepState (database_name table_name : String) (fk : ForeignKey) (count : Nat)
    (s : State) : State :=
  let s2 := RegisterForeignKeySource ⟨database_name, fk.sink_table_name⟩ table_name
    (AddForeignKey ⟨database_name, table_name⟩ fk s)
  if CreateExecutor.needsIndex fk then
    (CreateIndex database_name table_name fk.fk_column_names
      (CreateExecutor.indexName table_name count) false IndexType.BWTREE s2).2
  else s2

/-- The unit of work §4.2 and §5 prescribe for one declared key: attach the
record to the source table, resolve the sink table in the same database,
register the source name with it and then, only for a key with a
non-NO_ACTION action, create the index named with the ordinal `count`. -/
def keyRound (database_name table_name : String) (fk : ForeignKey) (count : Nat) :
    List (Event TableRef) :=
  [Event.AddForeignKey ⟨database_name, table_name⟩ fk,
    Event.GetDatabaseWithName database_name true,
    Event.GetTableWithName fk.sink_table_name true,
    Event.RegisterForeignKeySource ⟨database_name, fk.sink_table_name⟩ table_name] ++
  (if CreateExecutor.needsIndex fk then
    [Event.CreateIndex database_name table_name fk.fk_column_names
      (CreateExecutor.indexName table_name count) false IndexType.BWTREE ResultType.SUCCESS]
  else [])

/-- The calls §5 prescribes for a list of declared keys: the units of the
keys one after the other, in declaration order, the ordinal advancing only
after a key that got an index. -/
def specKeyEvents (database_name table_name : String) :
    List ForeignKey → Nat → List (Event TableRef)
  | [], _ => []
  | fk :: rest, count =>
    keyRound database_name table_name fk count ++
      specKeyEvents database_name table_name rest
        (if CreateExecutor.needsIndex fk then count + 1 else count)

/-- The calls §4.1 and §4.2 prescribe for a successful table request: the
table creation, the result write and, when a key list is present, the
resolution of the source table followed by the units of the keys. -/
def specTableEvents (node : CreatePlan) : List (Event TableRef) :=
  [Event.CreateTable node.database_name node.table_name node.schema ResultType.SUCCESS,
    Event.SetResult ResultType.SUCCESS] ++
  (match node.foreign_keys with
    | none => []
    | some fks =>
      [Event.GetDatabaseWithName node.database_name true,
        Event.GetTableWithName node.table_name true] ++
      specKeyEvents node.database_name node.table_name fks 1)

/-- The names of the sink tables of a list of keys. -/
def sinkNames (fks : List ForeignKey) : List String :=
  fks.map ForeignKey.sink_table_name

/-- The representation invariant of the sets of registered sources: no name
is listed twice. -/
def WellFormed (s : State) : Prop :=
  ∀ t ∈ s.tables, t.foreign_key_sources.Nodup

instance (s : State) : Decidable (WellFormed s) :=
  inferInstanceAs (Decidable (∀ t ∈ s.tables, t.foreign_key_sources.Nodup))

end SpecCatalog

/-! ## Example requests -/

namespace Examples

open SpecCatalog

/-- A catalog with the default database holding the table `users(id)`. -/
def usersOnly : State :=
  { databases := [DEFAULT_DB_NAME],
    tables := [⟨DEFAULT_DB_NAME, "users", ⟨[⟨"id", "INTEGER"⟩]⟩, [], [], []⟩] }

/-- The key `user_id -> users(id)` with delete action CASCADE (§8 scenario). -/
def fkUser : ForeignKey :=
  ⟨"users", ["user_id"], FKConstrActionType.NOACTION, FKConstrActionType.CASCADE⟩

/-- The request `CREATE TABLE orders(id, user_id)` with the given keys. -/
def createOrders (fks : Option (List ForeignKey)) : CreatePlan :=
  { create_type := CreateType.TABLE, database_name := DEFAULT_DB_NAME, table_name := "orders",
    schema := ⟨[⟨"id", "INTEGER"⟩, ⟨"user_id", "INTEGER"⟩]⟩, foreign_keys := fks,
    index_name := "", unique_flag := false, index_type := IndexType.BWTREE, index_attrs := [] }

/-- Three keys towards `users`, with (update, delete) actions NO_ACTION /
NO_ACTION, CASCADE / NO_ACTION and NO_ACTION / RESTRICT (§8, P3). -/
def threeKeys : List ForeignKey :=
  [⟨"users", ["k1"], FKConstrActionType.NOACTION, FKConstrActionType.NOACTION⟩,
   ⟨"users", ["k2"], FKConstrActionType.CASCADE, FKConstrActionType.NOACTION⟩,
   ⟨"users", ["k3"], FKConstrActionType.NOACTION, FKConstrActionType.RESTRICT⟩]

/-- The request `CREATE TABLE T(k1, k2, k3)` with the given keys. -/
def createT (fks : Option (List ForeignKey)) : CreatePlan :=
  { create_type := CreateType.TABLE, database_name := DEFAULT_DB_NAME, table_name := "T",
    schema := ⟨[⟨"k1", "INTEGER"⟩, ⟨"k2", "INTEGER"⟩, ⟨"k3", "INTEGER"⟩]⟩,
    foreign_keys := fks, index_name := "", unique_flag := false,
    index_type := IndexType.BWTREE, index_attrs := [] }

/-- The request `CREATE UNIQUE INDEX users_id ON users(id)`, carrying a
database name other than the default one. -/
def createUsersIndex : CreatePlan :=
  { create_type := CreateType.INDEX, database_name := "other_database", table_name := "users",
    schema := ⟨[]⟩, foreign_keys := none, index_name := "users_id", unique_flag := true,
    index_type := IndexType.OTHER 1, index_attrs := ["id"] }

/-- A transaction whose result slot holds some earlier value. -/
def txn0 : Transaction := ⟨ResultType.OTHER 0⟩

/-- The modelled catalog with an index creation that rejects every request
and leaves the catalog as it is. -/
def rejectingCatalog : Catalog State String TableRef :=
  { specCatalog with CreateIndex := fun _ _ _ _ _ _ s => (ResultType.FAILURE, s) }

/-- A key towards the table `accounts`, which `usersOnly` does not hold. -/
def fkAccount : ForeignKey :=
  ⟨"accounts", ["account_id"], FKConstrActionType.CASCADE, FKConstrActionType.NOACTION⟩

/-- The request `CREATE TABLE users(id)` with one key, issued on a catalog
that already holds `users`. -/
def createUsersAgain : CreatePlan :=
  { create_type := CreateType.TABLE, database_name := DEFAULT_DB_NAME, table_name := "users",
    schema := ⟨[⟨"id", "INTEGER"⟩]⟩, foreign_keys := some [fkUser], index_name := "",
    unique_flag := false, index_type := IndexType.BWTREE, index_attrs := [] }

/-- The request `CREATE TABLE orders(id, user_id)` with keys towards `users`,
`accounts` and `users`. -/
def createOrders3 : CreatePlan :=
  createOrders (some [fkUser, fkAccount, fkUser])

end Examples

end Peloton

/-! ## Properties of the executor, for every catalog -/

namespace Peloton

namespace CreateExecutor

variable {σ δ τ : Type}

theorem setResultWrites_append (xs ys : List (Event τ)) :
    setResultWrites (xs ++ ys) = setResultWrites xs ++ setResultWrites ys := by
  induction xs with
  | nil => rfl
  | cons e rest ih => cases e <;> simp [setResultWrites, ih]

theorem indexCalls_append (xs ys : List (Event τ)) :
    indexCalls (xs ++ ys) = indexCalls xs ++ indexCalls ys := by
  induction xs with
  | nil => rfl
  | cons e rest ih => cases e <;> simp [indexCalls, ih]

/-- The lookups a table resolution makes: the database, then (if found) the
table; the second component records whether each was found. -/
theorem lookupTable_trace (cat : Catalog σ δ τ) (d t : String) (s : σ) :
    (lookupTable cat d t s).2 = [Event.GetDatabaseWithName d false] ∨
    (lookupTable cat d t s).2 =
      [Event.GetDatabaseWithName d true, Event.GetTableWithName t false] ∨
    (lookupTable cat d t s).2 =
      [Event.GetDatabaseWithName d true, Event.GetTableWithName t true] := by
  unfold lookupTable
  split
  · simp
  · split <;> simp

theorem lookupTable_setResultWrites (cat : Catalog σ δ τ) (d t : String) (s : σ) :
    setResultWrites (lookupTable cat d t s).2 = [] := by
  rcases lookupTable_trace cat d t s with h | h | h <;> rw [h] <;> rfl

theorem lookupTable_indexCalls (cat : Catalog σ δ τ) (d t : String) (s : σ) :
    indexCalls (lookupTable cat d t s).2 = [] := by
  rcases lookupTable_trace cat d t s with h | h | h <;> rw [h] <;> rfl

/-- One round of the loop, when the sink lookup fails. -/
theorem processForeignKeys_cons_error (cat : Catalog σ δ τ) (d t : String) (src : τ)
    (fk : ForeignKey) (rest : List ForeignKey) (count : Nat) (s : σ) (e : ExecError)
    (h : (lookupTable cat d fk.sink_table_name (cat.AddForeignKey src fk s)).1 = .error e) :
    processForeignKeys cat d t src (fk :: rest) count s =
      (some e, cat.AddForeignKey src fk s,
        Event.AddForeignKey src fk ::
          (lookupTable cat d fk.sink_table_name (cat.AddForeignKey src fk s)).2) := by
  rw [processForeignKeys]
  generalize lookupTable cat d fk.sink_table_name (cat.AddForeignKey src fk s) = l at h
  obtain ⟨r, evs⟩ := l
  cases r with
  | error e2 => simp at h; simp [h]
  | ok v => simp at h

/-- One round of the loop, when the sink resolves and the key needs an
index. -/
theorem processForeignKeys_cons_index (cat : Catalog σ δ τ) (d t : String) (src : τ)
    (fk : ForeignKey) (rest : List ForeignKey) (count : Nat) (s : σ) (sink : τ)
    (h : (lookupTable cat d fk.sink_table_name (cat.AddForeignKey src fk s)).1 = .ok sink)
    (hn : needsIndex fk = true) :
    processForeignKeys cat d t src (fk :: rest) count s =
      ((processForeignKeys cat d t src rest (count + 1)
          (cat.CreateIndex d (cat.GetName src) fk.fk_column_names
            (indexName (cat.GetName src) count) false IndexType.BWTREE
            (cat.RegisterForeignKeySource sink t (cat.AddForeignKey src fk s))).2).1,
        (processForeignKeys cat d t src rest (count + 1)
          (cat.CreateIndex d (cat.GetName src) fk.fk_column_names
            (indexName (cat.GetName src) count) false IndexType.BWTREE
            (cat.RegisterForeignKeySource sink t (cat.AddForeignKey src fk s))).2).2.1,
        Event.AddForeignKey src fk ::
          (lookupTable cat d fk.sink_table_name (cat.AddForeignKey src fk s)).2 ++
          (Event.RegisterForeignKeySource sink t ::
            Event.CreateIndex d (cat.GetName src) fk.fk_column_names
              (indexName (cat.GetName src) count) false IndexType.BWTREE
              (cat.CreateIndex d (cat.GetName src) fk.fk_column_names
                (indexName (cat.GetName src) count) false IndexType.BWTREE
                (cat.RegisterForeignKeySource sink t (cat.AddForeignKey src fk s))).1 ::
            (processForeignKeys cat d t src rest (count + 1)
              (cat.CreateIndex d (cat.GetName src) fk.fk_column_names
                (indexName (cat.GetName src) count) false IndexType.BWTREE
                (cat.RegisterForeignKeySource sink t (cat.AddForeignKey src fk s))).2).2.2)) := by
  rw [processForeignKeys]
  generalize lookupTable cat d fk.sink_table_name (cat.AddForeignKey src fk s) = l at h
  obtain ⟨r, evs⟩ := l
  cases r with
  | error e2 => simp at h
  | ok v => simp at h; simp [h, hn]

/-- One round of the loop, when the sink resolves and the key needs no
index. -/
theorem processForeignKeys_cons_plain (cat : Catalog σ δ τ) (d t : String) (src : τ)
    (fk : ForeignKey) (rest : List ForeignKey) (count : Nat) (s : σ) (sink : τ)
    (h : (lookupTable cat d fk.sink_table_name (cat.AddForeignKey src fk s)).1 = .ok sink)
    (hn : needsIndex fk = false) :
    processForeignKeys cat d t src (fk :: rest) count s =
      ((processForeignKeys cat d t src rest count
          (cat.RegisterForeignKeySource sink t (cat.AddForeignKey src fk s))).1,
        (processForeignKeys cat d t src rest count
          (cat.RegisterForeignKeySource sink t (cat.AddForeignKey src fk s))).2.1,
        Event.AddForeignKey src fk ::
          (lookupTable cat d fk.sink_table_name (cat.AddForeignKey src fk s)).2 ++
          (Event.RegisterForeignKeySource sink t ::
            (processForeignKeys cat d t src rest count
              (cat.RegisterForeignKeySource sink t (cat.AddForeignKey src fk s))).2.2)) := by
  rw [processForeignKeys]
  generalize lookupTable cat d fk.sink_table_name (cat.AddForeignKey src fk s) = l at h
  obtain ⟨r, evs⟩ := l
  cases r with
  | error e2 => simp at h
  | ok v => simp at h; simp [h, hn]

/-- A table resolution either raises or answers a handle. -/
theorem lookup_cases (cat : Catalog σ δ τ) (d name : String) (s : σ) :
    (∃ e, (lookupTable cat d name s).1 = .error e) ∨
    (∃ h, (lookupTable cat d name s).1 = .ok h) := by
  cases hl : (lookupTable cat d name s).1 with
  | error e => exact Or.inl ⟨e, rfl⟩
  | ok h => exact Or.inr ⟨h, rfl⟩

theorem processForeignKeys_setResultWrites (cat : Catalog σ δ τ) (d t : String) (src : τ)
    (fks : List ForeignKey) (count : Nat) (s : σ) :
    setResultWrites (processForeignKeys cat d t src fks count s).2.2 = [] := by
  induction fks generalizing count s with
  | nil => rfl
  | cons fk rest ih =>
    rcases lookup_cases cat d fk.sink_table_name (cat.AddForeignKey src fk s) with
      ⟨e, he⟩ | ⟨sink, hs⟩
    · rw [processForeignKeys_cons_error cat d t src fk rest count s e he]
      simp [setResultWrites, lookupTable_setResultWrites]
    · cases hn : needsIndex fk with
      | true =>
        rw [processForeignKeys_cons_index cat d t src fk rest count s sink hs hn]
        simp [setResultWrites, setResultWrites_append, lookupTable_setResultWrites, ih]
      | false =>
        rw [processForeignKeys_cons_plain cat d t src fk rest count s sink hs hn]
        simp [setResultWrites, setResultWrites_append, lookupTable_setResultWrites, ih]

/-- For a table request `DExecute` is the table block: same catalog, same
transaction, same calls, and it returns `false` unless the block raised. -/
theorem DExecute_table (cat : Catalog σ δ τ) (node : CreatePlan) (s : σ) (txn : Transaction)
    (h : node.create_type = CreateType.TABLE) :
    (DExecute cat node s txn).catalog = (createTableBranch cat node s txn).catalog ∧
    (DExecute cat node s txn).txn = (createTableBranch cat node s txn).txn ∧
    (DExecute cat node s txn).trace = (createTableBranch cat node s txn).trace ∧
    (DExecute cat node s txn).ret =
      (match (createTableBranch cat node s txn).error with
        | some e => Except.error e
        | none => Except.ok false) := by
  unfold DExecute
  simp only [h, if_true]
  cases (createTableBranch cat node s txn).error <;> simp

/-- For an index request `DExecute` is the index block. -/
theorem DExecute_index (cat : Catalog σ δ τ) (node : CreatePlan) (s : σ) (txn : Transaction)
    (h : node.create_type = CreateType.INDEX) :
    (DExecute cat node s txn).catalog = (createIndexBranch cat node s txn).catalog ∧
    (DExecute cat node s txn).txn = (createIndexBranch cat node s txn).txn ∧
    (DExecute cat node s txn).trace = (createIndexBranch cat node s txn).trace ∧
    (DExecute cat node s txn).ret = Except.ok false := by
  unfold DExecute
  simp [h, createIndexBranch]

/-- The table block writes the result of `CreateTable` and nothing else. -/
theorem createTableBranch_result (cat : Catalog σ δ τ) (node : CreatePlan) (s : σ)
    (txn : Transaction) :
    setResultWrites (createTableBranch cat node s txn).trace =
      [(cat.CreateTable node.database_name node.table_name node.schema s).1] ∧
    (createTableBranch cat node s txn).txn.result =
      (cat.CreateTable node.database_name node.table_name node.schema s).1 := by
  unfold createTableBranch
  simp only [Transaction.GetResult, Transaction.SetResult]
  split
  · split
    · simp [setResultWrites]
    · split
      · simp [setResultWrites, setResultWrites_append]
        rename_i heq
        have := lookupTable_setResultWrites cat node.database_name node.table_name
          (cat.CreateTable node.database_name node.table_name node.schema s).2
        rw [heq] at this
        exact this
      · simp [setResultWrites, setResultWrites_append, processForeignKeys_setResultWrites]
        rename_i heq
        have := lookupTable_setResultWrites cat node.database_name node.table_name
          (cat.CreateTable node.database_name node.table_name node.schema s).2
        rw [heq] at this
        exact this
  · split <;> simp [setResultWrites]

theorem indexCalls_addForeignKey (table : τ) (fk : ForeignKey) (rest : List (Event τ)) :
    indexCalls (Event.AddForeignKey table fk :: rest) = indexCalls rest := rfl

theorem indexCalls_register (table : τ) (name : String) (rest : List (Event τ)) :
    indexCalls (Event.RegisterForeignKeySource table name :: rest) = indexCalls rest := rfl

theorem indexCalls_createIndex (d t : String) (a : List String) (n : String) (u : Bool)
    (k : IndexType) (r : ResultType) (rest : List (Event τ)) :
    indexCalls (Event.CreateIndex d t a n u k r :: rest) =
      (⟨d, t, a, n, u, k⟩ : IndexCall) :: indexCalls rest := rfl

theorem digitValue_digitChar (d : Nat) (h : d < 10) : digitValue (Nat.digitChar d) = d := by
  interval_cases d <;> rfl

theorem foldl_toDigitsCore (fuel : Nat) : ∀ (n : Nat) (ds : List Char), n < fuel →
    (Nat.toDigitsCore 10 fuel n ds).foldl (fun a c => 10 * a + digitValue c) 0 =
      ds.foldl (fun a c => 10 * a + digitValue c) n := by
  induction fuel with
  | zero => intro n ds h; omega
  | succ fuel ih =>
    intro n ds h
    unfold Nat.toDigitsCore
    simp only
    have hd : digitValue (Nat.digitChar (n % 10)) = n % 10 :=
      digitValue_digitChar _ (Nat.mod_lt _ (by decide))
    split
    · rename_i h0
      have hn : n % 10 = n := by omega
      rw [hn] at hd
      simp [List.foldl, hd, hn]
    · rename_i h0
      rw [ih (n / 10) _ (by omega)]
      simp only [List.foldl, hd]
      congr 1
      omega

theorem decimalValue_toDigits (n : Nat) : decimalValue (Nat.toDigits 10 n) = n := by
  unfold decimalValue Nat.toDigits
  rw [foldl_toDigitsCore (n + 1) n [] (by omega)]
  rfl

theorem toString_nat_injective (a b : Nat) (h : toString a = toString b) : a = b := by
  have h1 : Nat.repr a = Nat.repr b := h
  unfold Nat.repr at h1
  have h2 : Nat.toDigits 10 a = Nat.toDigits 10 b := by
    have := congrArg String.data h1
    simpa [List.asString] using this
  have := congrArg decimalValue h2
  simpa [decimalValue_toDigits] using this

theorem append_toString_injective (p : String) (a b : Nat)
    (h : p ++ toString a = p ++ toString b) : a = b := by
  apply toString_nat_injective
  have := congrArg String.data h
  simp only [String.data_append] at this
  exact String.ext (List.append_cancel_left this)

theorem indexName_injective (name : String) (a b : Nat)
    (h : indexName name a = indexName name b) : a = b :=
  append_toString_injective (name ++ "_FK_") a b h

/-- A successful table resolution went through `GetTableWithName`. -/
theorem lookupTable_ok (cat : Catalog σ δ τ) (d t : String) (s : σ) (src : τ)
    (h : (lookupTable cat d t s).1 = .ok src) :
    ∃ db, cat.GetDatabaseWithName d s = some db ∧ cat.GetTableWithName db t s = some src := by
  unfold lookupTable at h
  split at h
  · simp at h
  · rename_i db hdb
    split at h
    · simp at h
    · rename_i v hv
      simp at h
      exact ⟨db, hdb, by rw [hv, h]⟩

/-- The `CreateIndex` calls of a loop that meets no lookup failure: one per
key that needs an index, numbered from the starting counter. -/
theorem processForeignKeys_indexCalls (cat : Catalog σ δ τ) (d t : String) (src : τ)
    (fks : List ForeignKey) (count : Nat) (s : σ)
    (hok : (processForeignKeys cat d t src fks count s).1 = none) :
    indexCalls (processForeignKeys cat d t src fks count s).2.2 =
      ((fks.filter needsIndex).enumFrom count).map (fun p =>
        (⟨d, cat.GetName src, p.2.fk_column_names, indexName (cat.GetName src) p.1, false,
          IndexType.BWTREE⟩ : IndexCall)) := by
  induction fks generalizing count s with
  | nil => rfl
  | cons fk rest ih =>
    rcases lookup_cases cat d fk.sink_table_name (cat.AddForeignKey src fk s) with
      ⟨e, he⟩ | ⟨sink, hs⟩
    · rw [processForeignKeys_cons_error cat d t src fk rest count s e he] at hok
      simp at hok
    · cases hn : needsIndex fk with
      | true =>
        rw [processForeignKeys_cons_index cat d t src fk rest count s sink hs hn] at hok ⊢
        simp only at hok
        simp only [indexCalls_addForeignKey, indexCalls_register, indexCalls_createIndex,
          indexCalls_append, lookupTable_indexCalls, List.nil_append,
          List.filter_cons, hn, if_true, List.enumFrom_cons, List.map_cons]
        rw [ih (count + 1) _ hok]
      | false =>
        rw [processForeignKeys_cons_plain cat d t src fk rest count s sink hs hn] at hok ⊢
        simp only at hok
        simp only [indexCalls_addForeignKey, indexCalls_register,
          indexCalls_append, lookupTable_indexCalls, List.nil_append,
          List.filter_cons, hn]
        rw [ih count _ hok]
        simp

theorem needsIndex_iff (fk : ForeignKey) :
    needsIndex fk = true ↔
      (fk.update_action ≠ FKConstrActionType.NOACTION ∨
        fk.delete_action ≠ FKConstrActionType.NOACTION) := by
  simp [needsIndex]

theorem needsIndex_eq_decide :
    needsIndex = fun fk => decide (fk.update_action ≠ FKConstrActionType.NOACTION ∨
      fk.delete_action ≠ FKConstrActionType.NOACTION) := by
  funext fk
  cases h : needsIndex fk with
  | true => exact (decide_eq_true ((needsIndex_iff fk).1 h)).symm
  | false =>
    symm
    apply decide_eq_false
    intro hc
    rw [(needsIndex_iff fk).2 hc] at h
    cases h

/-- The `CreateIndex` calls of a successful table request that meets no
lookup failure, when a table resolved by name carries that name. -/
theorem DExecute_indexCalls (cat : Catalog σ δ τ) (node : CreatePlan) (s : σ)
    (txn : Transaction)
    (hname : ∀ (db : δ) (t : String) (s1 : σ) (h : τ),
      cat.GetTableWithName db t s1 = some h → cat.GetName h = t)
    (h : node.create_type = CreateType.TABLE)
    (hr : (cat.CreateTable node.database_name node.table_name node.schema s).1 =
      ResultType.SUCCESS)
    (hok : (DExecute cat node s txn).ret = Except.ok false) :
    indexCalls (DExecute cat node s txn).trace =
      (((declaredKeys node).filter needsIndex).enumFrom 1).map (fun p =>
        (⟨node.database_name, node.table_name, p.2.fk_column_names,
          indexName node.table_name p.1, false, IndexType.BWTREE⟩ : IndexCall)) := by
  obtain ⟨_, _, htrace, hret⟩ := DExecute_table cat node s txn h
  rw [hret] at hok
  rw [htrace]
  revert hok
  unfold createTableBranch declaredKeys
  simp only [Transaction.GetResult, Transaction.SetResult, hr, if_true]
  cases hfk : node.foreign_keys with
  | none => intro _; rfl
  | some fks =>
    simp only [Option.getD_some]
    rcases lookup_cases cat node.database_name node.table_name
        (cat.CreateTable node.database_name node.table_name node.schema s).2 with
      ⟨e, he⟩ | ⟨src, hs⟩
    · generalize lookupTable cat node.database_name node.table_name
        (cat.CreateTable node.database_name node.table_name node.schema s).2 = l at he
      obtain ⟨r, evs⟩ := l
      simp only at he
      subst he
      simp
    · obtain ⟨db, _, hget⟩ := lookupTable_ok cat _ _ _ src hs
      have hn := hname db _ _ src hget
      have hl := lookupTable_indexCalls cat node.database_name node.table_name
        (cat.CreateTable node.database_name node.table_name node.schema s).2
      generalize lookupTable cat node.database_name node.table_name
        (cat.CreateTable node.database_name node.table_name node.schema s).2 = l at hs hl
      obtain ⟨r, evs⟩ := l
      simp only at hs hl
      subst hs
      simp only
      intro hok
      have hnone : (processForeignKeys cat node.database_name node.table_name src fks 1
          (cat.CreateTable node.database_name node.table_name node.schema s).2).1 = none := by
        cases hp : (processForeignKeys cat node.database_name node.table_name src fks 1
          (cat.CreateTable node.database_name node.table_name node.schema s).2).1 with
        | none => rfl
        | some e => rw [hp] at hok; simp at hok
      rw [indexCalls_append, indexCalls_append, hl,
        processForeignKeys_indexCalls cat _ _ src fks 1 _ hnone, hn]
      rfl

/-- Claim C1: for a CreateTable request, whatever value `r` the catalog's
`CreateTable` call returns, `DExecute` calls `SetResult` exactly once, with
`r`, and the transaction result when `DExecute` stops is `r`; this holds for
every catalog, hence whatever the lookups, the foreign-key registrations and
the auto-index `CreateIndex` calls do or return. -/
theorem DExecute_createTable_writes_result_once (cat : Catalog σ δ τ) (node : CreatePlan)
    (s : σ) (txn : Transaction) (h : node.create_type = CreateType.TABLE) :
    setResultWrites (DExecute cat node s txn).trace =
      [(cat.CreateTable node.database_name node.table_name node.schema s).1] ∧
    (DExecute cat node s txn).txn.GetResult =
      (cat.CreateTable node.database_name node.table_name node.schema s).1 := by
  obtain ⟨_, htxn, htrace, _⟩ := DExecute_table cat node s txn h
  rw [htrace, Transaction.GetResult, htxn]
  exact createTableBranch_result cat node s txn

/-- Claim C2: for a CreateTable request whose `CreateTable` call returns
anything but SUCCESS, `DExecute` makes the `CreateTable` call and the
`SetResult` write and no other call (no lookup, no `AddForeignKey`, no
`RegisterForeignKeySource`, no `CreateIndex`), the catalog is left in the
state produced by `CreateTable`, and `DExecute` returns `false`. -/
theorem DExecute_createTable_not_success (cat : Catalog σ δ τ) (node : CreatePlan)
    (s : σ) (txn : Transaction) (h : node.create_type = CreateType.TABLE)
    (hr : (cat.CreateTable node.database_name node.table_name node.schema s).1 ≠
      ResultType.SUCCESS) :
    (DExecute cat node s txn).trace =
      [Event.CreateTable node.database_name node.table_name node.schema
          (cat.CreateTable node.database_name node.table_name node.schema s).1,
        Event.SetResult (cat.CreateTable node.database_name node.table_name node.schema s).1] ∧
    (DExecute cat node s txn).catalog =
      (cat.CreateTable node.database_name node.table_name node.schema s).2 ∧
    (DExecute cat node s txn).ret = Except.ok false := by
  obtain ⟨hcat, _, htrace, hret⟩ := DExecute_table cat node s txn h
  rw [htrace, hcat, hret]
  unfold createTableBranch
  simp only [Transaction.GetResult, Transaction.SetResult]
  rw [if_neg hr]
  split <;> simp

/-- Claim C7: for a CreateIndex request, `DExecute` makes exactly one catalog
call, `CreateIndex` on the default database with the request's table name,
attribute list, index name, uniqueness flag and index kind, then writes the
value it returned to the transaction result (one `SetResult`); no other
call is made, the catalog is left as that call left it, and `DExecute`
returns `false`. -/
theorem DExecute_createIndex (cat : Catalog σ δ τ) (node : CreatePlan) (s : σ)
    (txn : Transaction) (h : node.create_type = CreateType.INDEX) :
    (DExecute cat node s txn).trace =
      [Event.CreateIndex DEFAULT_DB_NAME node.table_name node.index_attrs node.index_name
          node.unique_flag node.index_type
          (cat.CreateIndex DEFAULT_DB_NAME node.table_name node.index_attrs node.index_name
            node.unique_flag node.index_type s).1,
        Event.SetResult
          (cat.CreateIndex DEFAULT_DB_NAME node.table_name node.index_attrs node.index_name
            node.unique_flag node.index_type s).1] ∧
    (DExecute cat node s txn).txn.GetResult =
      (cat.CreateIndex DEFAULT_DB_NAME node.table_name node.index_attrs node.index_name
        node.unique_flag node.index_type s).1 ∧
    (DExecute cat node s txn).catalog =
      (cat.CreateIndex DEFAULT_DB_NAME node.table_name node.index_attrs node.index_name
        node.unique_flag node.index_type s).2 ∧
    (DExecute cat node s txn).ret = Except.ok false := by
  obtain ⟨hcat, htxn, htrace, hret⟩ := DExecute_index cat node s txn h
  rw [htrace, hcat, hret, Transaction.GetResult, htxn]
  simp [createIndexBranch, Transaction.SetResult]

/-- Claim C9: whenever `DExecute` completes (returns instead of raising), the
value it returns is `false`, for every request, every catalog and every
result of the catalog calls. -/
theorem DExecute_returns_false (cat : Catalog σ δ τ) (node : CreatePlan) (s : σ)
    (txn : Transaction) (b : Bool) (h : (DExecute cat node s txn).ret = Except.ok b) :
    b = false := by
  unfold DExecute at h
  simp only at h
  split at h
  · cases h
  · cases h
    rfl

/-- Claim C3: for a successful CreateTable request that meets no lookup
failure (every sink resolves), the `CreateIndex` calls are, in order, exactly
one call per declared key whose update action or delete action is not
NO_ACTION, made with the request's database name, the source table's name,
the key's source column names, the uniqueness flag `false` (and the kind
BWTREE); so their number is the number of such keys, and no call is made when
every key is NO_ACTION / NO_ACTION.  The catalog is any catalog whose lookup
by name answers a table of that name. -/
theorem DExecute_autoIndex_calls (cat : Catalog σ δ τ) (node : CreatePlan) (s : σ)
    (txn : Transaction)
    (hname : ∀ (db : δ) (t : String) (s1 : σ) (h : τ),
      cat.GetTableWithName db t s1 = some h → cat.GetName h = t)
    (h : node.create_type = CreateType.TABLE)
    (hr : (cat.CreateTable node.database_name node.table_name node.schema s).1 =
      ResultType.SUCCESS)
    (hok : (DExecute cat node s txn).ret = Except.ok false) :
    (indexCalls (DExecute cat node s txn).trace).map
        (fun c => (c.database_name, c.table_name, c.index_attrs, c.unique_keys, c.index_type)) =
      ((declaredKeys node).filter (fun fk =>
          decide (fk.update_action ≠ FKConstrActionType.NOACTION ∨
            fk.delete_action ≠ FKConstrActionType.NOACTION))).map
        (fun fk => (node.database_name, node.table_name, fk.fk_column_names, false,
          IndexType.BWTREE)) ∧
    (indexCalls (DExecute cat node s txn).trace).length =
      (declaredKeys node).countP (fun fk =>
          decide (fk.update_action ≠ FKConstrActionType.NOACTION ∨
            fk.delete_action ≠ FKConstrActionType.NOACTION)) ∧
    ((∀ fk ∈ declaredKeys node, fk.update_action = FKConstrActionType.NOACTION ∧
        fk.delete_action = FKConstrActionType.NOACTION) →
      indexCalls (DExecute cat node s txn).trace = []) := by
  have hcalls := DExecute_indexCalls cat node s txn hname h hr hok
  rw [needsIndex_eq_decide] at hcalls
  rw [hcalls]
  refine ⟨?_, ?_, ?_⟩
  · rw [List.map_map]
    generalize (declaredKeys node).filter _ = l
    generalize (1 : Nat) = k
    induction l generalizing k with
    | nil => rfl
    | cons a rest ih => simp [List.enumFrom_cons, ih]
  · simp [List.countP_eq_length_filter]
  · intro hall
    have : (declaredKeys node).filter (fun fk =>
        decide (fk.update_action ≠ FKConstrActionType.NOACTION ∨
          fk.delete_action ≠ FKConstrActionType.NOACTION)) = [] := by
      rw [List.filter_eq_nil_iff]
      intro fk hfk
      have := hall fk hfk
      simp [this.1, this.2]
    rw [this]
    rfl

/-- Claim C4: for a successful CreateTable request on table `T` that meets no
lookup failure, the `CreateIndex` calls listed in the order they are issued
are those of the declared keys having a non-NO_ACTION update or delete
action, in declaration order, and the k-th of them (k from 1) is named `T`
followed by `_FK_` followed by the decimal representation of k; keys with
NO_ACTION / NO_ACTION consume no ordinal and the names are pairwise
distinct.  The catalog is any catalog whose lookup by name answers a table of
that name. -/
theorem DExecute_autoIndex_names (cat : Catalog σ δ τ) (node : CreatePlan) (s : σ)
    (txn : Transaction)
    (hname : ∀ (db : δ) (t : String) (s1 : σ) (h : τ),
      cat.GetTableWithName db t s1 = some h → cat.GetName h = t)
    (h : node.create_type = CreateType.TABLE)
    (hr : (cat.CreateTable node.database_name node.table_name node.schema s).1 =
      ResultType.SUCCESS)
    (hok : (DExecute cat node s txn).ret = Except.ok false) :
    (indexCalls (DExecute cat node s txn).trace).map (fun c => (c.index_attrs, c.index_name)) =
      (((declaredKeys node).filter (fun fk =>
          decide (fk.update_action ≠ FKConstrActionType.NOACTION ∨
            fk.delete_action ≠ FKConstrActionType.NOACTION))).enumFrom 1).map
        (fun p => (p.2.fk_column_names, node.table_name ++ "_FK_" ++ toString p.1)) ∧
    ((indexCalls (DExecute cat node s txn).trace).map IndexCall.index_name).Nodup := by
  have hcalls := DExecute_indexCalls cat node s txn hname h hr hok
  rw [needsIndex_eq_decide] at hcalls
  rw [hcalls]
  refine ⟨?_, ?_⟩
  · rw [List.map_map]
    rfl
  · rw [List.map_map]
    have hcomp : (IndexCall.index_name ∘ fun p : Nat × ForeignKey =>
        (⟨node.database_name, node.table_name, p.2.fk_column_names,
          indexName node.table_name p.1, false, IndexType.BWTREE⟩ : IndexCall)) =
        (fun k => indexName node.table_name k) ∘ Prod.fst := rfl
    rw [hcomp, ← List.map_map, List.enumFrom_map_fst]
    exact (List.nodup_range' 1 _).map (fun a b hab => indexName_injective node.table_name a b hab)

end CreateExecutor

end Peloton

/-! ## Properties of the catalog modelled from the specification -/

namespace Peloton

namespace SpecCatalog

open CreateExecutor

theorem isTable_iff (d n : String) (t : DataTable) :
    isTable d n t = true ↔ (t.database_name = d ∧ t.name = n) := by
  simp [isTable]

/-- Looking a table up after `modifyFirst`: the table that was modified is
seen through `f`, every other table is unchanged. -/
theorem find_modifyFirst (d n d1 n1 : String) (f : DataTable → DataTable)
    (hf : ∀ x, (f x).database_name = x.database_name ∧ (f x).name = x.name)
    (tables : List DataTable) :
    (modifyFirst d1 n1 f tables).find? (isTable d n) =
      if d = d1 ∧ n = n1 then (tables.find? (isTable d n)).map f
      else tables.find? (isTable d n) := by
  induction tables with
  | nil => simp [modifyFirst]
  | cons t rest ih =>
    have hft : isTable d n (f t) = isTable d n t := by
      simp [isTable, (hf t).1, (hf t).2]
    unfold modifyFirst
    by_cases h1 : isTable d1 n1 t = true
    · rw [if_pos h1]
      have h1' := (isTable_iff d1 n1 t).1 h1
      by_cases hk : d = d1 ∧ n = n1
      · have h2 : isTable d n t = true := by
          rw [isTable_iff]; exact ⟨h1'.1.trans hk.1.symm, h1'.2.trans hk.2.symm⟩
        rw [if_pos hk, List.find?_cons, List.find?_cons, hft, h2]
        rfl
      · have h2 : isTable d n t = false := by
          cases hb : isTable d n t with
          | false => rfl
          | true =>
            have := (isTable_iff d n t).1 hb
            exact absurd ⟨this.1.symm.trans h1'.1, this.2.symm.trans h1'.2⟩ hk
        rw [if_neg hk, List.find?_cons, List.find?_cons, hft, h2]
    · rw [if_neg h1]
      by_cases h2 : isTable d n t = true
      · have hk : ¬ (d = d1 ∧ n = n1) := by
          intro hk
          apply h1
          have := (isTable_iff d n t).1 h2
          rw [isTable_iff]
          exact ⟨this.1.trans hk.1, this.2.trans hk.2⟩
        rw [if_neg hk, List.find?_cons, List.find?_cons, h2]
      · have h2' : isTable d n t = false := by simpa using h2
        rw [List.find?_cons, List.find?_cons, h2']
        exact ih

theorem findTable_AddForeignKey (d n : String) (ref : TableRef) (fk : ForeignKey) (s : State) :
    findTable d n (AddForeignKey ref fk s) =
      if d = ref.database_name ∧ n = ref.name then
        (findTable d n s).map (fun t => { t with foreign_keys := t.foreign_keys ++ [fk] })
      else findTable d n s := by
  unfold findTable AddForeignKey
  exact find_modifyFirst d n ref.database_name ref.name
    (fun t => { t with foreign_keys := t.foreign_keys ++ [fk] }) (fun x => ⟨rfl, rfl⟩) s.tables

theorem findTable_RegisterForeignKeySource (d n : String) (ref : TableRef) (src : String)
    (s : State) :
    findTable d n (RegisterForeignKeySource ref src s) =
      if d = ref.database_name ∧ n = ref.name then
        (findTable d n s).map (fun t =>
          { t with foreign_key_sources := insertName src t.foreign_key_sources })
      else findTable d n s := by
  unfold findTable RegisterForeignKeySource
  exact find_modifyFirst d n ref.database_name ref.name
    (fun t => { t with foreign_key_sources := insertName src t.foreign_key_sources })
    (fun x => ⟨rfl, rfl⟩) s.tables

theorem findTable_CreateIndex (d n d1 n1 : String) (attrs : List String) (iname : String)
    (u : Bool) (k : IndexType) (s : State) :
    findTable d n (CreateIndex d1 n1 attrs iname u k s).2 =
      if d = d1 ∧ n = n1 then
        (findTable d n s).map (fun t =>
          { t with indexes := t.indexes ++ [⟨iname, attrs, u, k⟩] })
      else findTable d n s := by
  unfold CreateIndex
  by_cases hex : (findTable d1 n1 s).isSome = true
  · rw [if_pos hex]
    unfold findTable
    exact find_modifyFirst d n d1 n1
      (fun t => { t with indexes := t.indexes ++ [⟨iname, attrs, u, k⟩] })
      (fun x => ⟨rfl, rfl⟩) s.tables
  · rw [if_neg hex]
    by_cases hk : d = d1 ∧ n = n1
    · rw [if_pos hk]
      obtain ⟨rfl, rfl⟩ := hk
      cases hf : findTable d n s with
      | none => rfl
      | some t => rw [hf] at hex; simp at hex
    · rw [if_neg hk]

theorem CreateIndex_result (d1 n1 : String) (attrs : List String) (iname : String)
    (u : Bool) (k : IndexType) (s : State) :
    (CreateIndex d1 n1 attrs iname u k s).1 =
      if tableExists d1 n1 s then ResultType.SUCCESS else ResultType.FAILURE := by
  unfold CreateIndex tableExists
  split <;> rfl

theorem databases_AddForeignKey (ref : TableRef) (fk : ForeignKey) (s : State) :
    (AddForeignKey ref fk s).databases = s.databases := rfl

theorem databases_RegisterForeignKeySource (ref : TableRef) (src : String) (s : State) :
    (RegisterForeignKeySource ref src s).databases = s.databases := rfl

theorem databases_CreateIndex (d1 n1 : String) (attrs : List String) (iname : String)
    (u : Bool) (k : IndexType) (s : State) :
    (CreateIndex d1 n1 attrs iname u k s).2.databases = s.databases := by
  unfold CreateIndex
  split <;> rfl

/-- A lookup by name in the modelled catalog: it succeeds exactly when the
database and the table exist, and answers the handle of that name. -/
theorem lookupTable_spec (d n : String) (s : State) :
    lookupTable specCatalog d n s =
      if d ∈ s.databases then
        if tableExists d n s then
          (.ok ⟨d, n⟩, [Event.GetDatabaseWithName d true, Event.GetTableWithName n true])
        else
          (.error (.CatalogLookupError n),
            [Event.GetDatabaseWithName d true, Event.GetTableWithName n false])
      else (.error (.CatalogLookupError d), [Event.GetDatabaseWithName d false]) := by
  unfold lookupTable
  simp only [specCatalog, GetDatabaseWithName, GetTableWithName, tableExists]
  by_cases hd : d ∈ s.databases
  · simp only [hd, if_true]
    by_cases hex : (findTable d n s).isSome = true
    · rw [if_pos hex]
      obtain ⟨x, hx⟩ := Option.isSome_iff_exists.1 hex
      rw [hx]
      rfl
    · rw [if_neg hex]
      have hnone : findTable d n s = none := by simpa using hex
      rw [hnone]
      rfl
  · simp [hd]

theorem specCatalog_GetName (db : String) (t : String) (s : State) (h : TableRef)
    (hget : specCatalog.GetTableWithName db t s = some h) : specCatalog.GetName h = t := by
  simp only [specCatalog, GetTableWithName] at hget ⊢
  cases hf : findTable db t s with
  | none => rw [hf] at hget; simp at hget
  | some x =>
    rw [hf] at hget
    simp at hget
    rw [← hget]

/-! ### What each catalog operation does to the observable parts of a table -/

theorem tableExists_AddForeignKey (d n : String) (ref : TableRef) (fk : ForeignKey)
    (s : State) : tableExists d n (AddForeignKey ref fk s) = tableExists d n s := by
  unfold tableExists
  rw [findTable_AddForeignKey]
  split <;> simp

theorem tableExists_RegisterForeignKeySource (d n : String) (ref : TableRef) (src : String)
    (s : State) : tableExists d n (RegisterForeignKeySource ref src s) = tableExists d n s := by
  unfold tableExists
  rw [findTable_RegisterForeignKeySource]
  split <;> simp

theorem tableExists_CreateIndex (d n d1 n1 : String) (attrs : List String) (iname : String)
    (u : Bool) (k : IndexType) (s : State) :
    tableExists d n (CreateIndex d1 n1 attrs iname u k s).2 = tableExists d n s := by
  unfold tableExists
  rw [findTable_CreateIndex]
  split <;> simp

theorem foreignKeysOf_AddForeignKey (d n : String) (ref : TableRef) (fk : ForeignKey)
    (s : State) :
    foreignKeysOf d n (AddForeignKey ref fk s) =
      (foreignKeysOf d n s).map
        (fun l => if d = ref.database_name ∧ n = ref.name then l ++ [fk] else l) := by
  unfold foreignKeysOf
  rw [findTable_AddForeignKey]
  split <;> cases findTable d n s <;> simp [*]

theorem foreignKeysOf_RegisterForeignKeySource (d n : String) (ref : TableRef) (src : String)
    (s : State) :
    foreignKeysOf d n (RegisterForeignKeySource ref src s) = foreignKeysOf d n s := by
  unfold foreignKeysOf
  rw [findTable_RegisterForeignKeySource]
  split <;> cases findTable d n s <;> simp

theorem foreignKeysOf_CreateIndex (d n d1 n1 : String) (attrs : List String) (iname : String)
    (u : Bool) (k : IndexType) (s : State) :
    foreignKeysOf d n (CreateIndex d1 n1 attrs iname u k s).2 = foreignKeysOf d n s := by
  unfold foreignKeysOf
  rw [findTable_CreateIndex]
  split <;> cases findTable d n s <;> simp

theorem sourcesOf_AddForeignKey (d n : String) (ref : TableRef) (fk : ForeignKey)
    (s : State) : sourcesOf d n (AddForeignKey ref fk s) = sourcesOf d n s := by
  unfold sourcesOf
  rw [findTable_AddForeignKey]
  split <;> cases findTable d n s <;> simp

theorem sourcesOf_RegisterForeignKeySource (d n : String) (ref : TableRef) (src : String)
    (s : State) :
    sourcesOf d n (RegisterForeignKeySource ref src s) =
      (sourcesOf d n s).map
        (fun l => if d = ref.database_name ∧ n = ref.name then insertName src l else l) := by
  unfold sourcesOf
  rw [findTable_RegisterForeignKeySource]
  split <;> cases findTable d n s <;> simp [*]

theorem sourcesOf_CreateIndex (d n d1 n1 : String) (attrs : List String) (iname : String)
    (u : Bool) (k : IndexType) (s : State) :
    sourcesOf d n (CreateIndex d1 n1 attrs iname u k s).2 = sourcesOf d n s := by
  unfold sourcesOf
  rw [findTable_CreateIndex]
  split <;> cases findTable d n s <;> simp

theorem indexesOf_AddForeignKey (d n : String) (ref : TableRef) (fk : ForeignKey)
    (s : State) : indexesOf d n (AddForeignKey ref fk s) = indexesOf d n s := by
  unfold indexesOf
  rw [findTable_AddForeignKey]
  split <;> cases findTable d n s <;> simp

theorem indexesOf_RegisterForeignKeySource (d n : String) (ref : TableRef) (src : String)
    (s : State) :
    indexesOf d n (RegisterForeignKeySource ref src s) = indexesOf d n s := by
  unfold indexesOf
  rw [findTable_RegisterForeignKeySource]
  split <;> cases findTable d n s <;> simp

theorem indexesOf_CreateIndex (d n d1 n1 : String) (attrs : List String) (iname : String)
    (u : Bool) (k : IndexType) (s : State) :
    indexesOf d n (CreateIndex d1 n1 attrs iname u k s).2 =
      (indexesOf d n s).map
        (fun l => if d = d1 ∧ n = n1 then l ++ [⟨iname, attrs, u, k⟩] else l) := by
  unfold indexesOf
  rw [findTable_CreateIndex]
  split <;> cases findTable d n s <;> simp [*]

theorem insertName_mem (name : String) (names : List String) : name ∈ insertName name names := by
  unfold insertName
  split <;> simp [*]

theorem insertName_idem (name : String) (names : List String) :
    insertName name (insertName name names) = insertName name names := by
  generalize hl : insertName name names = l
  have hmem : name ∈ l := hl ▸ insertName_mem name names
  unfold insertName
  rw [if_pos hmem]

theorem insertName_nodup (name : String) (names : List String) (h : names.Nodup) :
    (insertName name names).Nodup := by
  unfold insertName
  split
  · exact h
  · rename_i hn
    rw [List.nodup_append]
    refine ⟨h, List.nodup_singleton _, ?_⟩
    intro a ha hb
    simp at hb
    subst hb
    exact hn ha

theorem insertName_count (name : String) (names : List String) (h : names.Nodup) :
    (insertName name names).count name = 1 :=
  List.count_eq_one_of_mem (insertName_nodup name names h) (insertName_mem name names)

/-! ### One round of the foreign-key loop on the modelled catalog -/

theorem databases_stepState (d T : String) (fk : ForeignKey) (count : Nat) (s : State) :
    (stepState d T fk count s).databases = s.databases := by
  unfold stepState
  simp only
  split
  · rw [databases_CreateIndex]; rfl
  · rfl

theorem tableExists_stepState (d T : String) (fk : ForeignKey) (count : Nat) (s : State)
    (d1 n : String) : tableExists d1 n (stepState d T fk count s) = tableExists d1 n s := by
  unfold stepState
  simp only
  split
  · rw [tableExists_CreateIndex, tableExists_RegisterForeignKeySource,
      tableExists_AddForeignKey]
  · rw [tableExists_RegisterForeignKeySource, tableExists_AddForeignKey]

theorem foreignKeysOf_stepState (d T : String) (fk : ForeignKey) (count : Nat) (s : State)
    (d1 n : String) :
    foreignKeysOf d1 n (stepState d T fk count s) =
      (foreignKeysOf d1 n s).map (fun l => if d1 = d ∧ n = T then l ++ [fk] else l) := by
  unfold stepState
  simp only
  split
  · rw [foreignKeysOf_CreateIndex, foreignKeysOf_RegisterForeignKeySource,
      foreignKeysOf_AddForeignKey]
  · rw [foreignKeysOf_RegisterForeignKeySource, foreignKeysOf_AddForeignKey]

theorem sourcesOf_stepState (d T : String) (fk : ForeignKey) (count : Nat) (s : State)
    (d1 n : String) :
    sourcesOf d1 n (stepState d T fk count s) =
      (sourcesOf d1 n s).map
        (fun l => if d1 = d ∧ n = fk.sink_table_name then insertName T l else l) := by
  unfold stepState
  simp only
  split
  · rw [sourcesOf_CreateIndex, sourcesOf_RegisterForeignKeySource, sourcesOf_AddForeignKey]
  · rw [sourcesOf_RegisterForeignKeySource, sourcesOf_AddForeignKey]

theorem indexesOf_stepState (d T : String) (fk : ForeignKey) (count : Nat) (s : State)
    (d1 n : String) :
    indexesOf d1 n (stepState d T fk count s) =
      (indexesOf d1 n s).map
        (fun l => if d1 = d ∧ n = T then l ++ autoIndexes T count [fk] else l) := by
  unfold stepState
  simp only
  split
  · rename_i hn
    rw [indexesOf_CreateIndex, indexesOf_RegisterForeignKeySource, indexesOf_AddForeignKey]
    simp [autoIndexes, hn]
  · rename_i hn
    rw [indexesOf_RegisterForeignKeySource, indexesOf_AddForeignKey]
    simp [autoIndexes, hn]

/-- One round of the loop on the modelled catalog, when the database, the
source table and the sink table of the key exist. -/
theorem processForeignKeys_spec_cons (d T : String) (fk : ForeignKey)
    (rest : List ForeignKey) (count : Nat) (s : State)
    (hdb : d ∈ s.databases) (hsrc : tableExists d T s = true)
    (hsink : tableExists d fk.sink_table_name s = true) :
    processForeignKeys specCatalog d T ⟨d, T⟩ (fk :: rest) count s =
      ((processForeignKeys specCatalog d T ⟨d, T⟩ rest
          (if needsIndex fk then count + 1 else count) (stepState d T fk count s)).1,
        (processForeignKeys specCatalog d T ⟨d, T⟩ rest
          (if needsIndex fk then count + 1 else count) (stepState d T fk count s)).2.1,
        keyRound d T fk count ++
          (processForeignKeys specCatalog d T ⟨d, T⟩ rest
            (if needsIndex fk then count + 1 else count) (stepState d T fk count s)).2.2) := by
  have hl : lookupTable specCatalog d fk.sink_table_name
      (specCatalog.AddForeignKey ⟨d, T⟩ fk s) =
      (.ok ⟨d, fk.sink_table_name⟩,
        [Event.GetDatabaseWithName d true, Event.GetTableWithName fk.sink_table_name true]) := by
    rw [lookupTable_spec]
    have h1 : d ∈ (specCatalog.AddForeignKey ⟨d, T⟩ fk s).databases := hdb
    have h2 : tableExists d fk.sink_table_name (specCatalog.AddForeignKey ⟨d, T⟩ fk s) = true := by
      show tableExists d fk.sink_table_name (AddForeignKey ⟨d, T⟩ fk s) = true
      rw [tableExists_AddForeignKey]; exact hsink
    rw [if_pos h1, if_pos h2]
  have hl1 : (lookupTable specCatalog d fk.sink_table_name
      (specCatalog.AddForeignKey ⟨d, T⟩ fk s)).1 = .ok ⟨d, fk.sink_table_name⟩ := by rw [hl]
  cases hn : needsIndex fk with
  | true =>
    rw [processForeignKeys_cons_index specCatalog d T ⟨d, T⟩ fk rest count s _ hl1 hn, hl]
    have hst : stepState d T fk count s =
        (specCatalog.CreateIndex d (specCatalog.GetName ⟨d, T⟩) fk.fk_column_names
          (indexName (specCatalog.GetName ⟨d, T⟩) count) false IndexType.BWTREE
          (specCatalog.RegisterForeignKeySource ⟨d, fk.sink_table_name⟩ T
            (specCatalog.AddForeignKey ⟨d, T⟩ fk s))).2 := by
      unfold stepState
      simp only [hn, if_true]
      rfl
    have hres : (specCatalog.CreateIndex d (specCatalog.GetName ⟨d, T⟩) fk.fk_column_names
          (indexName (specCatalog.GetName ⟨d, T⟩) count) false IndexType.BWTREE
          (specCatalog.RegisterForeignKeySource ⟨d, fk.sink_table_name⟩ T
            (specCatalog.AddForeignKey ⟨d, T⟩ fk s))).1 = ResultType.SUCCESS := by
      show (CreateIndex d T fk.fk_column_names (indexName T count) false IndexType.BWTREE
          (RegisterForeignKeySource ⟨d, fk.sink_table_name⟩ T
            (AddForeignKey ⟨d, T⟩ fk s))).1 = ResultType.SUCCESS
      rw [CreateIndex_result, tableExists_RegisterForeignKeySource, tableExists_AddForeignKey,
        hsrc]
      rfl
    rw [← hst, hres]
    simp only [if_true, keyRound, hn]
    rfl
  | false =>
    rw [processForeignKeys_cons_plain specCatalog d T ⟨d, T⟩ fk rest count s _ hl1 hn, hl]
    have hst : stepState d T fk count s =
        specCatalog.RegisterForeignKeySource ⟨d, fk.sink_table_name⟩ T
          (specCatalog.AddForeignKey ⟨d, T⟩ fk s) := by
      unfold stepState
      simp only [hn]
      rfl
    rw [← hst]
    simp only [keyRound, hn]
    rfl

theorem autoIndexes_cons (T : String) (count : Nat) (fk : ForeignKey)
    (rest : List ForeignKey) :
    autoIndexes T count (fk :: rest) =
      autoIndexes T count [fk] ++
        autoIndexes T (if needsIndex fk then count + 1 else count) rest := by
  unfold autoIndexes
  cases hn : needsIndex fk <;> simp [List.filter_cons, hn, List.enumFrom_cons]

/-- The foreign-key loop on the modelled catalog, when the database, the
source table and every sink table exist: it raises nothing, makes the calls
of `specKeyEvents`, and changes the catalog as described per table. -/
theorem processForeignKeys_spec (d T : String) (fks : List ForeignKey) :
    ∀ (count : Nat) (s : State), d ∈ s.databases → tableExists d T s = true →
      (∀ fk ∈ fks, tableExists d fk.sink_table_name s = true) →
      (processForeignKeys specCatalog d T ⟨d, T⟩ fks count s).1 = none ∧
      (processForeignKeys specCatalog d T ⟨d, T⟩ fks count s).2.2 =
        specKeyEvents d T fks count ∧
      (processForeignKeys specCatalog d T ⟨d, T⟩ fks count s).2.1.databases = s.databases ∧
      (∀ d1 n, tableExists d1 n (processForeignKeys specCatalog d T ⟨d, T⟩ fks count s).2.1 =
        tableExists d1 n s) ∧
      (∀ d1 n, foreignKeysOf d1 n (processForeignKeys specCatalog d T ⟨d, T⟩ fks count s).2.1 =
        (foreignKeysOf d1 n s).map (fun l => if d1 = d ∧ n = T then l ++ fks else l)) ∧
      (∀ d1 n, sourcesOf d1 n (processForeignKeys specCatalog d T ⟨d, T⟩ fks count s).2.1 =
        (sourcesOf d1 n s).map
          (fun l => if d1 = d ∧ n ∈ sinkNames fks then insertName T l else l)) ∧
      (∀ d1 n, indexesOf d1 n (processForeignKeys specCatalog d T ⟨d, T⟩ fks count s).2.1 =
        (indexesOf d1 n s).map
          (fun l => if d1 = d ∧ n = T then l ++ autoIndexes T count fks else l)) := by
  induction fks with
  | nil =>
    intro count s _ _ _
    refine ⟨rfl, rfl, rfl, fun _ _ => rfl, ?_, ?_, ?_⟩
    · intro d1 n
      show foreignKeysOf d1 n s = _
      cases foreignKeysOf d1 n s <;> simp
    · intro d1 n
      show sourcesOf d1 n s = _
      cases sourcesOf d1 n s <;> simp [sinkNames]
    · intro d1 n
      show indexesOf d1 n s = _
      cases indexesOf d1 n s <;> simp [autoIndexes]
  | cons fk rest ih =>
    intro count s hdb hsrc hsinks
    have hsink := hsinks fk (List.mem_cons_self _ _)
    rw [processForeignKeys_spec_cons d T fk rest count s hdb hsrc hsink]
    have hdb1 : d ∈ (stepState d T fk count s).databases := by
      rw [databases_stepState]; exact hdb
    have hsrc1 : tableExists d T (stepState d T fk count s) = true := by
      rw [tableExists_stepState]; exact hsrc
    have hsinks1 : ∀ fk1 ∈ rest,
        tableExists d fk1.sink_table_name (stepState d T fk count s) = true := by
      intro fk1 h1
      rw [tableExists_stepState]
      exact hsinks fk1 (List.mem_cons_of_mem _ h1)
    obtain ⟨h1, h2, h3, h4, h5, h6, h7⟩ :=
      ih (if needsIndex fk then count + 1 else count) (stepState d T fk count s) hdb1 hsrc1
        hsinks1
    refine ⟨h1, ?_, ?_, ?_, ?_, ?_, ?_⟩
    · simp only [h2, specKeyEvents]
    · simp only [h3, databases_stepState]
    · intro d1 n
      simp only [h4, tableExists_stepState]
    · intro d1 n
      simp only [h5, foreignKeysOf_stepState]
      cases foreignKeysOf d1 n s with
      | none => rfl
      | some l => by_cases hk : d1 = d ∧ n = T <;> simp [hk]
    · intro d1 n
      simp only [h6, sourcesOf_stepState]
      cases sourcesOf d1 n s with
      | none => rfl
      | some l =>
        have hcons : ∀ m, m ∈ sinkNames (fk :: rest) ↔
            (m = fk.sink_table_name ∨ m ∈ sinkNames rest) := by
          intro m
          simp [sinkNames]
        by_cases hd : d1 = d
        · by_cases ha : n = fk.sink_table_name
          · subst ha
            have hm : fk.sink_table_name ∈ sinkNames (fk :: rest) := (hcons _).2 (Or.inl rfl)
            by_cases hb : fk.sink_table_name ∈ sinkNames rest
            · simp [hd, hm, hb, insertName_idem]
            · simp [hd, hm, hb]
          · by_cases hb : n ∈ sinkNames rest
            · have hm : n ∈ sinkNames (fk :: rest) := (hcons _).2 (Or.inr hb)
              simp [hd, hm, ha, hb]
            · have hm : n ∉ sinkNames (fk :: rest) := fun h =>
                ((hcons _).1 h).elim ha hb
              simp [hd, hm, ha, hb]
        · simp [hd]
    · intro d1 n
      simp only [h7, indexesOf_stepState]
      cases indexesOf d1 n s with
      | none => rfl
      | some l =>
        by_cases hk : d1 = d ∧ n = T
        · simp only [Option.map_some', hk, and_self, if_true, List.append_assoc]
          rw [autoIndexes_cons T count fk rest]
        · simp [hk]

/-! ### Table creation on the modelled catalog -/

theorem CreateTable_success (d T : String) (schema : Schema) (s : State)
    (hr : (CreateTable d T schema s).1 = ResultType.SUCCESS) :
    d ∈ s.databases ∧ findTable d T s = none ∧
      (CreateTable d T schema s).2 =
        { s with tables := s.tables ++ [⟨d, T, schema, [], [], []⟩] } := by
  unfold CreateTable at hr ⊢
  by_cases h1 : d ∉ s.databases
  · rw [if_pos h1] at hr; cases hr
  · rw [if_neg h1] at hr ⊢
    by_cases h2 : (findTable d T s).isSome = true
    · rw [if_pos h2] at hr; cases hr
    · rw [if_neg h2] at hr ⊢
      by_cases h3 : schema.columns = []
      · rw [if_pos h3] at hr; cases hr
      · rw [if_neg h3]
        refine ⟨by simpa using h1, by simpa using h2, rfl⟩

theorem findTable_CreateTable (d T : String) (schema : Schema) (s : State)
    (hr : (CreateTable d T schema s).1 = ResultType.SUCCESS) (d1 n : String) :
    findTable d1 n (CreateTable d T schema s).2 =
      if d1 = d ∧ n = T then some ⟨d, T, schema, [], [], []⟩ else findTable d1 n s := by
  obtain ⟨_, hnone, hs⟩ := CreateTable_success d T schema s hr
  rw [hs]
  unfold findTable at hnone ⊢
  simp only [List.find?_append]
  by_cases hk : d1 = d ∧ n = T
  · obtain ⟨rfl, rfl⟩ := hk
    rw [hnone]
    simp [isTable]
  · rw [if_neg hk]
    have : isTable d1 n ⟨d, T, schema, [], [], []⟩ = false := by
      cases hb : isTable d1 n ⟨d, T, schema, [], [], []⟩ with
      | false => rfl
      | true =>
        have := (isTable_iff d1 n _).1 hb
        exact absurd ⟨this.1.symm, this.2.symm⟩ hk
    simp [List.find?_cons, this]

theorem tableExists_CreateTable_self (d T : String) (schema : Schema) (s : State)
    (hr : (CreateTable d T schema s).1 = ResultType.SUCCESS) :
    tableExists d T (CreateTable d T schema s).2 = true := by
  unfold tableExists
  rw [findTable_CreateTable d T schema s hr]
  simp

theorem databases_CreateTable (d T : String) (schema : Schema) (s : State) :
    (CreateTable d T schema s).2.databases = s.databases := by
  unfold CreateTable
  split
  · rfl
  · split
    · rfl
    · split <;> rfl

theorem wellFormed_CreateTable (d T : String) (schema : Schema) (s : State)
    (hwf : WellFormed s) : WellFormed (CreateTable d T schema s).2 := by
  unfold CreateTable
  split
  · exact hwf
  · split
    · exact hwf
    · split
      · exact hwf
      · intro t ht
        simp only [List.mem_append, List.mem_singleton] at ht
        rcases ht with ht | ht
        · exact hwf t ht
        · subst ht
          exact List.nodup_nil

theorem sourcesOf_nodup (d n : String) (s : State) (hwf : WellFormed s) (l : List String)
    (h : sourcesOf d n s = some l) : l.Nodup := by
  unfold sourcesOf findTable at h
  cases hf : s.tables.find? (isTable d n) with
  | none => rw [hf] at h; cases h
  | some t =>
    rw [hf] at h
    simp at h
    subst h
    exact hwf t (List.mem_of_find?_eq_some hf)

/-- The table block on the modelled catalog, for a creation that succeeds and
a request carrying a key list. -/
theorem createTableBranch_spec (node : CreatePlan) (s : State) (txn : Transaction)
    (fks : List ForeignKey) (hfk : node.foreign_keys = some fks)
    (hr : (CreateTable node.database_name node.table_name node.schema s).1 =
      ResultType.SUCCESS) :
    (createTableBranch specCatalog node s txn).error =
      (processForeignKeys specCatalog node.database_name node.table_name
        ⟨node.database_name, node.table_name⟩ fks 1
        (CreateTable node.database_name node.table_name node.schema s).2).1 ∧
    (createTableBranch specCatalog node s txn).catalog =
      (processForeignKeys specCatalog node.database_name node.table_name
        ⟨node.database_name, node.table_name⟩ fks 1
        (CreateTable node.database_name node.table_name node.schema s).2).2.1 ∧
    (createTableBranch specCatalog node s txn).txn = ⟨ResultType.SUCCESS⟩ ∧
    (createTableBranch specCatalog node s txn).trace =
      [Event.CreateTable node.database_name node.table_name node.schema ResultType.SUCCESS,
        Event.SetResult ResultType.SUCCESS,
        Event.GetDatabaseWithName node.database_name true,
        Event.GetTableWithName node.table_name true] ++
      (processForeignKeys specCatalog node.database_name node.table_name
        ⟨node.database_name, node.table_name⟩ fks 1
        (CreateTable node.database_name node.table_name node.schema s).2).2.2 := by
  have hr1 : (specCatalog.CreateTable node.database_name node.table_name node.schema s).1 =
      ResultType.SUCCESS := hr
  have hl : lookupTable specCatalog node.database_name node.table_name
      (specCatalog.CreateTable node.database_name node.table_name node.schema s).2 =
      (.ok ⟨node.database_name, node.table_name⟩,
        [Event.GetDatabaseWithName node.database_name true,
          Event.GetTableWithName node.table_name true]) := by
    rw [lookupTable_spec]
    have h1 : node.database_name ∈
        (specCatalog.CreateTable node.database_name node.table_name node.schema s).2.databases := by
      show node.database_name ∈
        (CreateTable node.database_name node.table_name node.schema s).2.databases
      rw [databases_CreateTable]
      exact (CreateTable_success _ _ _ _ hr).1
    have h2 : tableExists node.database_name node.table_name
        (specCatalog.CreateTable node.database_name node.table_name node.schema s).2 = true :=
      tableExists_CreateTable_self _ _ _ _ hr
    rw [if_pos h1, if_pos h2]
  unfold createTableBranch
  simp only [Transaction.GetResult, Transaction.SetResult, hr1, if_true, hfk, hl]
  simp
  exact ⟨rfl, rfl, rfl⟩

/-- The table block on the modelled catalog, for a creation that succeeds and
a request without key list. -/
theorem createTableBranch_spec_none (node : CreatePlan) (s : State) (txn : Transaction)
    (hfk : node.foreign_keys = none)
    (hr : (CreateTable node.database_name node.table_name node.schema s).1 =
      ResultType.SUCCESS) :
    (createTableBranch specCatalog node s txn).error = none ∧
    (createTableBranch specCatalog node s txn).catalog =
      (CreateTable node.database_name node.table_name node.schema s).2 ∧
    (createTableBranch specCatalog node s txn).txn = ⟨ResultType.SUCCESS⟩ ∧
    (createTableBranch specCatalog node s txn).trace =
      [Event.CreateTable node.database_name node.table_name node.schema ResultType.SUCCESS,
        Event.SetResult ResultType.SUCCESS] := by
  have hr1 : (specCatalog.CreateTable node.database_name node.table_name node.schema s).1 =
      ResultType.SUCCESS := hr
  unfold createTableBranch
  simp only [Transaction.GetResult, Transaction.SetResult, hr1, if_true, hfk]
  simp
  rfl

/-- A successful table request on the modelled catalog whose sink tables all
exist once the table is created: `DExecute` returns `false`, writes SUCCESS,
makes the calls of `specTableEvents`, and changes the catalog left by
`CreateTable` as described per table. -/
theorem DExecute_spec_success (node : CreatePlan) (s : State) (txn : Transaction)
    (h : node.create_type = CreateType.TABLE)
    (hr : (CreateTable node.database_name node.table_name node.schema s).1 =
      ResultType.SUCCESS)
    (hsinks : ∀ fk ∈ declaredKeys node,
      tableExists node.database_name fk.sink_table_name
        (CreateTable node.database_name node.table_name node.schema s).2 = true) :
    (DExecute specCatalog node s txn).ret = Except.ok false ∧
    (DExecute specCatalog node s txn).txn = ⟨ResultType.SUCCESS⟩ ∧
    (DExecute specCatalog node s txn).trace = specTableEvents node ∧
    (DExecute specCatalog node s txn).catalog =
      (processForeignKeys specCatalog node.database_name node.table_name
        ⟨node.database_name, node.table_name⟩ (declaredKeys node) 1
        (CreateTable node.database_name node.table_name node.schema s).2).2.1 := by
  obtain ⟨hcat, htxn, htrace, hret⟩ := DExecute_table specCatalog node s txn h
  rw [hcat, htxn, htrace, hret]
  have hdb : node.database_name ∈
      (CreateTable node.database_name node.table_name node.schema s).2.databases := by
    rw [databases_CreateTable]
    exact (CreateTable_success _ _ _ _ hr).1
  have hsrc := tableExists_CreateTable_self _ _ _ _ hr
  cases hfk : node.foreign_keys with
  | none =>
    obtain ⟨h1, h2, h3, h4⟩ := createTableBranch_spec_none node s txn hfk hr
    rw [h1, h2, h3, h4]
    simp only [specTableEvents, declaredKeys, hfk]
    refine ⟨?_, ?_, ?_, ?_⟩ <;> first | rfl | trivial
  | some fks =>
    obtain ⟨h1, h2, h3, h4⟩ := createTableBranch_spec node s txn fks hfk hr
    have hd : declaredKeys node = fks := by simp [declaredKeys, hfk]
    rw [hd] at hsinks ⊢
    obtain ⟨p1, p2, _⟩ := processForeignKeys_spec node.database_name node.table_name fks 1
      _ hdb hsrc hsinks
    rw [h1, h2, h3, h4, p1, p2]
    simp only [specTableEvents, hfk]
    refine ⟨?_, ?_, ?_, ?_⟩ <;> first | rfl | trivial

/-- Claim C5: for a successful CreateTable request on the modelled catalog
whose sink tables all exist once the table is created, `DExecute` completes
and afterwards the source table's outgoing foreign keys are exactly the
declared records, one per declared key in declaration order (the table is
new, so these are the records it gained); for every declared key the sink
table named by the key, in the database of the source table, lists the
source table's name among its registered sources; and the calls made are the
creation, the result write, the resolution of the source table and then, key
after key in declaration order, the unit attach / resolve sink / register /
optional index creation, each unit ending before the next begins. -/
theorem DExecute_registers_foreign_keys (node : CreatePlan) (s : State) (txn : Transaction)
    (h : node.create_type = CreateType.TABLE)
    (hr : (CreateTable node.database_name node.table_name node.schema s).1 =
      ResultType.SUCCESS)
    (hsinks : ∀ fk ∈ declaredKeys node,
      tableExists node.database_name fk.sink_table_name
        (CreateTable node.database_name node.table_name node.schema s).2 = true) :
    (DExecute specCatalog node s txn).ret = Except.ok false ∧
    foreignKeysOf node.database_name node.table_name (DExecute specCatalog node s txn).catalog =
      some (declaredKeys node) ∧
    (∀ fk ∈ declaredKeys node, ∃ names,
      sourcesOf node.database_name fk.sink_table_name
        (DExecute specCatalog node s txn).catalog = some names ∧
      node.table_name ∈ names) ∧
    (DExecute specCatalog node s txn).trace = specTableEvents node := by
  obtain ⟨hret, _, htrace, hcat⟩ := DExecute_spec_success node s txn h hr hsinks
  have hdb : node.database_name ∈
      (CreateTable node.database_name node.table_name node.schema s).2.databases := by
    rw [databases_CreateTable]
    exact (CreateTable_success _ _ _ _ hr).1
  have hsrc := tableExists_CreateTable_self _ _ _ _ hr
  obtain ⟨_, _, _, _, pfk, psrc, _⟩ := processForeignKeys_spec node.database_name
    node.table_name (declaredKeys node) 1 _ hdb hsrc hsinks
  refine ⟨hret, ?_, ?_, htrace⟩
  · rw [hcat, pfk]
    unfold foreignKeysOf
    rw [findTable_CreateTable _ _ _ _ hr]
    simp
  · intro fk hfk
    rw [hcat, psrc]
    have hex := hsinks fk hfk
    unfold tableExists at hex
    obtain ⟨t, ht⟩ := Option.isSome_iff_exists.1 hex
    have hmem : fk.sink_table_name ∈ sinkNames (declaredKeys node) :=
      List.mem_map_of_mem _ hfk
    refine ⟨insertName node.table_name t.foreign_key_sources, ?_, insertName_mem _ _⟩
    unfold sourcesOf
    rw [ht]
    simp [hmem]

end SpecCatalog

end Peloton

/-! ## The loop on a key list split around a failing key, and the fate of
the auto-index results -/

namespace Peloton

namespace CreateExecutor

variable {σ δ τ : Type}

/-- The loop on `pre ++ fk :: post` when the keys of `pre` raise nothing and
the sink of `fk` does not resolve: it stops at `fk`, after attaching its
record, in the catalog reached after `pre`. -/
theorem processForeignKeys_append_error (cat : Catalog σ δ τ) (d t : String) (src : τ)
    (pre : List ForeignKey) (fk : ForeignKey) (post : List ForeignKey) (e : ExecError) :
    ∀ (count : Nat) (s : σ), (processForeignKeys cat d t src pre count s).1 = none →
      (lookupTable cat d fk.sink_table_name
        (cat.AddForeignKey src fk (processForeignKeys cat d t src pre count s).2.1)).1 =
          .error e →
      processForeignKeys cat d t src (pre ++ fk :: post) count s =
        (some e, cat.AddForeignKey src fk (processForeignKeys cat d t src pre count s).2.1,
          (processForeignKeys cat d t src pre count s).2.2 ++
            Event.AddForeignKey src fk ::
              (lookupTable cat d fk.sink_table_name
                (cat.AddForeignKey src fk
                  (processForeignKeys cat d t src pre count s).2.1)).2) := by
  induction pre with
  | nil =>
    intro count s _ hfail
    exact processForeignKeys_cons_error cat d t src fk post count s e hfail
  | cons a rest ih =>
    intro count s hpre hfail
    rcases lookup_cases cat d a.sink_table_name (cat.AddForeignKey src a s) with
      ⟨e1, he⟩ | ⟨sink, hs⟩
    · rw [processForeignKeys_cons_error cat d t src a rest count s e1 he] at hpre
      simp at hpre
    · cases hn : needsIndex a with
      | true =>
        rw [processForeignKeys_cons_index cat d t src a rest count s sink hs hn] at hpre hfail
        simp only at hpre hfail
        rw [List.cons_append,
          processForeignKeys_cons_index cat d t src a (rest ++ fk :: post) count s sink hs hn,
          processForeignKeys_cons_index cat d t src a rest count s sink hs hn,
          ih _ _ hpre hfail]
        simp
      | false =>
        rw [processForeignKeys_cons_plain cat d t src a rest count s sink hs hn] at hpre hfail
        simp only at hpre hfail
        rw [List.cons_append,
          processForeignKeys_cons_plain cat d t src a (rest ++ fk :: post) count s sink hs hn,
          processForeignKeys_cons_plain cat d t src a rest count s sink hs hn,
          ih _ _ hpre hfail]
        simp

theorem lookupTable_withIndexResult (cat : Catalog σ δ τ) (f : ResultType → ResultType)
    (d t : String) (s : σ) :
    lookupTable (withIndexResult cat f) d t s = lookupTable cat d t s := rfl

/-- The loop does not look at the values `CreateIndex` returns: replacing
them changes neither the pending exception nor the catalog reached. -/
theorem processForeignKeys_withIndexResult (cat : Catalog σ δ τ) (f : ResultType → ResultType)
    (d t : String) (src : τ) (fks : List ForeignKey) :
    ∀ (count : Nat) (s : σ),
      (processForeignKeys (withIndexResult cat f) d t src fks count s).1 =
        (processForeignKeys cat d t src fks count s).1 ∧
      (processForeignKeys (withIndexResult cat f) d t src fks count s).2.1 =
        (processForeignKeys cat d t src fks count s).2.1 := by
  induction fks with
  | nil => intro count s; exact ⟨rfl, rfl⟩
  | cons fk rest ih =>
    intro count s
    rcases lookup_cases cat d fk.sink_table_name (cat.AddForeignKey src fk s) with
      ⟨e, he⟩ | ⟨sink, hs⟩
    · have he1 : (lookupTable (withIndexResult cat f) d fk.sink_table_name
          ((withIndexResult cat f).AddForeignKey src fk s)).1 = .error e := he
      rw [processForeignKeys_cons_error cat d t src fk rest count s e he,
        processForeignKeys_cons_error (withIndexResult cat f) d t src fk rest count s e he1]
      exact ⟨rfl, rfl⟩
    · have hs1 : (lookupTable (withIndexResult cat f) d fk.sink_table_name
          ((withIndexResult cat f).AddForeignKey src fk s)).1 = .ok sink := hs
      cases hn : needsIndex fk with
      | true =>
        rw [processForeignKeys_cons_index cat d t src fk rest count s sink hs hn,
          processForeignKeys_cons_index (withIndexResult cat f) d t src fk rest count s sink
            hs1 hn]
        exact ih _ _
      | false =>
        rw [processForeignKeys_cons_plain cat d t src fk rest count s sink hs hn,
          processForeignKeys_cons_plain (withIndexResult cat f) d t src fk rest count s sink
            hs1 hn]
        exact ih _ _

theorem createTableBranch_withIndexResult (cat : Catalog σ δ τ) (f : ResultType → ResultType)
    (node : CreatePlan) (s : σ) (txn : Transaction) :
    (createTableBranch (withIndexResult cat f) node s txn).error =
      (createTableBranch cat node s txn).error ∧
    (createTableBranch (withIndexResult cat f) node s txn).catalog =
      (createTableBranch cat node s txn).catalog ∧
    (createTableBranch (withIndexResult cat f) node s txn).txn =
      (createTableBranch cat node s txn).txn := by
  have hct : (withIndexResult cat f).CreateTable = cat.CreateTable := rfl
  unfold createTableBranch
  simp only [hct, lookupTable_withIndexResult]
  split
  · cases node.foreign_keys with
    | none => exact ⟨rfl, rfl, rfl⟩
    | some fks =>
      simp only
      generalize lookupTable cat node.database_name node.table_name
        (cat.CreateTable node.database_name node.table_name node.schema s).2 = l
      obtain ⟨r, evs⟩ := l
      cases r with
      | error e => exact ⟨rfl, rfl, rfl⟩
      | ok src =>
        simp only
        obtain ⟨h1, h2⟩ := processForeignKeys_withIndexResult cat f node.database_name
          node.table_name src fks 1
          (cat.CreateTable node.database_name node.table_name node.schema s).2
        exact ⟨h1, h2, trivial⟩
  · split <;> exact ⟨rfl, rfl, rfl⟩

/-- Line 79 calls `CreateIndex` as a statement: for a table request the run
does not depend on the values those calls return.  Replacing every such
value by another one leaves the outcome of `DExecute`, the transaction result
and the catalog unchanged. -/
theorem DExecute_autoIndex_result_discarded (cat : Catalog σ δ τ)
    (f : ResultType → ResultType) (node : CreatePlan) (s : σ) (txn : Transaction)
    (h : node.create_type = CreateType.TABLE) :
    (DExecute (withIndexResult cat f) node s txn).ret = (DExecute cat node s txn).ret ∧
    (DExecute (withIndexResult cat f) node s txn).txn = (DExecute cat node s txn).txn ∧
    (DExecute (withIndexResult cat f) node s txn).catalog =
      (DExecute cat node s txn).catalog := by
  obtain ⟨hcat, htxn, _, hret⟩ := DExecute_table cat node s txn h
  obtain ⟨hcat1, htxn1, _, hret1⟩ := DExecute_table (withIndexResult cat f) node s txn h
  obtain ⟨he, hc, ht⟩ := createTableBranch_withIndexResult cat f node s txn
  rw [hcat, htxn, hret, hcat1, htxn1, hret1, he, hc, ht]
  exact ⟨rfl, rfl, rfl⟩

end CreateExecutor

end Peloton

/-! ## Registration on the modelled catalog: repeated sinks, missing sinks -/

namespace Peloton

namespace SpecCatalog

open CreateExecutor

theorem count_register_keyRound (d T sink : String) (fk : ForeignKey) (count : Nat) :
    (keyRound d T fk count).count (Event.RegisterForeignKeySource ⟨d, sink⟩ T) =
      if fk.sink_table_name = sink then 1 else 0 := by
  unfold keyRound
  by_cases hs : fk.sink_table_name = sink
  · cases needsIndex fk <;> simp [List.count_cons, hs]
  · cases needsIndex fk <;> simp [List.count_cons, hs]

theorem count_register_specKeyEvents (d T sink : String) (fks : List ForeignKey) :
    ∀ count : Nat,
      (specKeyEvents d T fks count).count (Event.RegisterForeignKeySource ⟨d, sink⟩ T) =
        fks.countP (fun fk => decide (fk.sink_table_name = sink)) := by
  induction fks with
  | nil => intro count; rfl
  | cons fk rest ih =>
    intro count
    rw [specKeyEvents, List.count_append, count_register_keyRound, ih, List.countP_cons]
    by_cases hs : fk.sink_table_name = sink
    · simp [hs]
      omega
    · simp [hs]

theorem count_register_specTableEvents (node : CreatePlan) (sink : String) :
    (specTableEvents node).count
        (Event.RegisterForeignKeySource ⟨node.database_name, sink⟩ node.table_name) =
      (declaredKeys node).countP (fun fk => decide (fk.sink_table_name = sink)) := by
  unfold specTableEvents declaredKeys
  cases node.foreign_keys with
  | none => simp [List.count_cons]
  | some fks =>
    simp only [List.count_append, count_register_specKeyEvents, Option.getD_some]
    simp [List.count_cons]

/-- Claim C6: for a successful CreateTable request on the modelled catalog
(sets of registered sources kept without repetition) in which two or more
declared keys name the same sink table, `DExecute` calls
`RegisterForeignKeySource` on that sink with the source name once per such
key, and afterwards the sink table lists the source table's name exactly
once. -/
theorem DExecute_registers_source_once (node : CreatePlan) (s : State) (txn : Transaction)
    (sink : String) (h : node.create_type = CreateType.TABLE)
    (hr : (CreateTable node.database_name node.table_name node.schema s).1 =
      ResultType.SUCCESS)
    (hsinks : ∀ fk ∈ declaredKeys node,
      tableExists node.database_name fk.sink_table_name
        (CreateTable node.database_name node.table_name node.schema s).2 = true)
    (hwf : WellFormed s)
    (htwo : 2 ≤ (declaredKeys node).countP (fun fk => decide (fk.sink_table_name = sink))) :
    (sourcesOf node.database_name sink (DExecute specCatalog node s txn).catalog).map
        (fun names => names.count node.table_name) = some 1 ∧
    (DExecute specCatalog node s txn).trace.count
        (Event.RegisterForeignKeySource ⟨node.database_name, sink⟩ node.table_name) =
      (declaredKeys node).countP (fun fk => decide (fk.sink_table_name = sink)) := by
  obtain ⟨_, _, htrace, hcat⟩ := DExecute_spec_success node s txn h hr hsinks
  have hdb : node.database_name ∈
      (CreateTable node.database_name node.table_name node.schema s).2.databases := by
    rw [databases_CreateTable]
    exact (CreateTable_success _ _ _ _ hr).1
  have hsrc := tableExists_CreateTable_self _ _ _ _ hr
  obtain ⟨_, _, _, _, _, psrc, _⟩ := processForeignKeys_spec node.database_name
    node.table_name (declaredKeys node) 1 _ hdb hsrc hsinks
  refine ⟨?_, ?_⟩
  · have hpos : 0 < (declaredKeys node).countP
        (fun fk => decide (fk.sink_table_name = sink)) := by omega
    obtain ⟨fk, hfk, hsink⟩ := List.countP_pos_iff.1 hpos
    have hsink1 : fk.sink_table_name = sink := by simpa using hsink
    have hmem : sink ∈ sinkNames (declaredKeys node) := by
      rw [← hsink1]
      exact List.mem_map_of_mem _ hfk
    have hex := hsinks fk hfk
    rw [hsink1] at hex
    rw [hcat, psrc]
    cases hso : sourcesOf node.database_name sink
        (CreateTable node.database_name node.table_name node.schema s).2 with
    | none =>
      unfold tableExists at hex
      unfold sourcesOf at hso
      cases hf : findTable node.database_name sink
          (CreateTable node.database_name node.table_name node.schema s).2 with
      | none => rw [hf] at hex; simp at hex
      | some t => rw [hf] at hso; simp at hso
    | some l =>
      have hnd : l.Nodup :=
        sourcesOf_nodup _ _ _ (wellFormed_CreateTable _ _ _ s hwf) l hso
      simp only [Option.map_some', hmem, and_self, if_true]
      rw [insertName_count _ _ hnd]
  · rw [htrace, count_register_specTableEvents]

/-- Claim C10: for a successful CreateTable request on the modelled catalog
whose declared keys are `pre ++ fk :: post`, where every sink of `pre`
exists and the sink of `fk` does not (so `fk` is the first key with a missing
sink), `DExecute` raises the lookup error for that sink and undoes nothing:
the transaction result is SUCCESS, the created table exists, the catalog is
the one reached by the complete run on the keys `pre` alone with the record
of `fk` attached in addition, the calls are those of that run followed by the
attach of `fk` and the failed resolution of its sink (no registration, no
index creation, nothing for the keys of `post`); hence the source table holds
the records `pre ++ [fk]`, every sink of `pre` lists the source name, and the
indexes of the source table are the auto-indexes of `pre`. -/
theorem DExecute_missing_sink (node : CreatePlan) (s : State) (txn : Transaction)
    (pre : List ForeignKey) (fk : ForeignKey) (post : List ForeignKey)
    (h : node.create_type = CreateType.TABLE)
    (hr : (CreateTable node.database_name node.table_name node.schema s).1 =
      ResultType.SUCCESS)
    (hfks : node.foreign_keys = some (pre ++ fk :: post))
    (hpre : ∀ k ∈ pre,
      tableExists node.database_name k.sink_table_name
        (CreateTable node.database_name node.table_name node.schema s).2 = true)
    (hmiss : tableExists node.database_name fk.sink_table_name
      (CreateTable node.database_name node.table_name node.schema s).2 = false) :
    (DExecute specCatalog node s txn).ret =
      Except.error (ExecError.CatalogLookupError fk.sink_table_name) ∧
    (DExecute specCatalog node s txn).txn.GetResult = ResultType.SUCCESS ∧
    tableExists node.database_name node.table_name
      (DExecute specCatalog node s txn).catalog = true ∧
    (DExecute specCatalog { node with foreign_keys := some pre } s txn).ret =
      Except.ok false ∧
    (DExecute specCatalog node s txn).catalog =
      AddForeignKey ⟨node.database_name, node.table_name⟩ fk
        (DExecute specCatalog { node with foreign_keys := some pre } s txn).catalog ∧
    (DExecute specCatalog node s txn).trace =
      (DExecute specCatalog { node with foreign_keys := some pre } s txn).trace ++
        [Event.AddForeignKey ⟨node.database_name, node.table_name⟩ fk,
          Event.GetDatabaseWithName node.database_name true,
          Event.GetTableWithName fk.sink_table_name false] ∧
    foreignKeysOf node.database_name node.table_name
      (DExecute specCatalog node s txn).catalog = some (pre ++ [fk]) ∧
    (∀ k ∈ pre, ∃ names,
      sourcesOf node.database_name k.sink_table_name
        (DExecute specCatalog node s txn).catalog = some names ∧
      node.table_name ∈ names) ∧
    indexesOf node.database_name node.table_name
      (DExecute specCatalog node s txn).catalog = some (autoIndexes node.table_name 1 pre) := by
  have hdb : node.database_name ∈
      (CreateTable node.database_name node.table_name node.schema s).2.databases := by
    rw [databases_CreateTable]
    exact (CreateTable_success _ _ _ _ hr).1
  have hsrc := tableExists_CreateTable_self _ _ _ _ hr
  -- the run on the keys of `pre`
  obtain ⟨p1, p2, p3, p4, p5, p6, p7⟩ := processForeignKeys_spec node.database_name
    node.table_name pre 1 _ hdb hsrc hpre
  have hpreKeys : ∀ k ∈ declaredKeys { node with foreign_keys := some pre },
      tableExists node.database_name k.sink_table_name
        (CreateTable node.database_name node.table_name node.schema s).2 = true := hpre
  obtain ⟨q1, _, q3, q4⟩ := DExecute_spec_success { node with foreign_keys := some pre } s txn
    h hr hpreKeys
  have q4a : (DExecute specCatalog { node with foreign_keys := some pre } s txn).catalog =
      (processForeignKeys specCatalog node.database_name node.table_name
        ⟨node.database_name, node.table_name⟩ pre 1
        (CreateTable node.database_name node.table_name node.schema s).2).2.1 := q4
  have q3a : (DExecute specCatalog { node with foreign_keys := some pre } s txn).trace =
      [Event.CreateTable node.database_name node.table_name node.schema ResultType.SUCCESS,
        Event.SetResult ResultType.SUCCESS,
        Event.GetDatabaseWithName node.database_name true,
        Event.GetTableWithName node.table_name true] ++
      specKeyEvents node.database_name node.table_name pre 1 := q3
  -- the failing resolution
  have hl : lookupTable specCatalog node.database_name fk.sink_table_name
      (specCatalog.AddForeignKey ⟨node.database_name, node.table_name⟩ fk
        (processForeignKeys specCatalog node.database_name node.table_name
          ⟨node.database_name, node.table_name⟩ pre 1
          (CreateTable node.database_name node.table_name node.schema s).2).2.1) =
      (.error (.CatalogLookupError fk.sink_table_name),
        [Event.GetDatabaseWithName node.database_name true,
          Event.GetTableWithName fk.sink_table_name false]) := by
    rw [lookupTable_spec]
    have h1 : node.database_name ∈
        (specCatalog.AddForeignKey ⟨node.database_name, node.table_name⟩ fk
          (processForeignKeys specCatalog node.database_name node.table_name
            ⟨node.database_name, node.table_name⟩ pre 1
            (CreateTable node.database_name node.table_name node.schema s).2).2.1).databases := by
      show node.database_name ∈
        (processForeignKeys specCatalog node.database_name node.table_name
            ⟨node.database_name, node.table_name⟩ pre 1
            (CreateTable node.database_name node.table_name node.schema s).2).2.1.databases
      rw [p3]; exact hdb
    have h2 : tableExists node.database_name fk.sink_table_name
        (specCatalog.AddForeignKey ⟨node.database_name, node.table_name⟩ fk
          (processForeignKeys specCatalog node.database_name node.table_name
            ⟨node.database_name, node.table_name⟩ pre 1
            (CreateTable node.database_name node.table_name node.schema s).2).2.1) = false := by
      show tableExists node.database_name fk.sink_table_name
        (AddForeignKey ⟨node.database_name, node.table_name⟩ fk _) = false
      rw [tableExists_AddForeignKey, p4]; exact hmiss
    rw [if_pos h1, h2]
    rfl
  have hl1 : (lookupTable specCatalog node.database_name fk.sink_table_name
      (specCatalog.AddForeignKey ⟨node.database_name, node.table_name⟩ fk
        (processForeignKeys specCatalog node.database_name node.table_name
          ⟨node.database_name, node.table_name⟩ pre 1
          (CreateTable node.database_name node.table_name node.schema s).2).2.1)).1 =
      .error (.CatalogLookupError fk.sink_table_name) := by rw [hl]
  have hloop := processForeignKeys_append_error specCatalog node.database_name
    node.table_name ⟨node.database_name, node.table_name⟩ pre fk post
    (.CatalogLookupError fk.sink_table_name) 1
    (CreateTable node.database_name node.table_name node.schema s).2 p1 hl1
  rw [hl, p2] at hloop
  -- the run on all keys
  obtain ⟨hcat, htxn, htrace, hret⟩ := DExecute_table specCatalog node s txn h
  obtain ⟨b1, b2, b3, b4⟩ := createTableBranch_spec node s txn (pre ++ fk :: post) hfks hr
  rw [hloop] at b1 b2 b4
  simp only at b1 b2 b4
  have hcatalog : (DExecute specCatalog node s txn).catalog =
      AddForeignKey ⟨node.database_name, node.table_name⟩ fk
        (DExecute specCatalog { node with foreign_keys := some pre } s txn).catalog := by
    rw [hcat, b2, q4a]
    rfl
  refine ⟨?_, ?_, ?_, q1, hcatalog, ?_, ?_, ?_, ?_⟩
  · rw [hret, b1]
  · rw [Transaction.GetResult, htxn, b3]
  · rw [hcatalog, tableExists_AddForeignKey, q4a, p4]
    exact hsrc
  · rw [htrace, b4, q3a]
    simp
  · rw [hcatalog, foreignKeysOf_AddForeignKey, q4a, p5]
    unfold foreignKeysOf
    rw [findTable_CreateTable _ _ _ _ hr]
    simp
  · intro k hk
    rw [hcatalog, sourcesOf_AddForeignKey, q4a, p6]
    have hex := hpre k hk
    unfold tableExists at hex
    obtain ⟨t, ht⟩ := Option.isSome_iff_exists.1 hex
    have hmem : k.sink_table_name ∈ sinkNames pre := List.mem_map_of_mem _ hk
    refine ⟨insertName node.table_name t.foreign_key_sources, ?_, insertName_mem _ _⟩
    unfold sourcesOf
    rw [ht]
    simp [hmem]
  · rw [hcatalog, indexesOf_AddForeignKey, q4a, p7]
    unfold indexesOf
    rw [findTable_CreateTable _ _ _ _ hr]
    simp

end SpecCatalog

end Peloton

/-! ## The claims on concrete requests -/

namespace Peloton

namespace Examples

open CreateExecutor SpecCatalog

/-- The table request of §8 on a catalog that rejects the auto-index: the
result of `CreateTable` (SUCCESS) is written once and is the final result. -/
theorem DExecute_createTable_writes_result_once_witness :
    (createOrders (some [fkUser])).create_type = CreateType.TABLE ∧
    (setResultWrites
        (DExecute rejectingCatalog (createOrders (some [fkUser])) usersOnly txn0).trace =
      [(rejectingCatalog.CreateTable (createOrders (some [fkUser])).database_name
        (createOrders (some [fkUser])).table_name (createOrders (some [fkUser])).schema
        usersOnly).1] ∧
    (DExecute rejectingCatalog (createOrders (some [fkUser])) usersOnly txn0).txn.GetResult =
      (rejectingCatalog.CreateTable (createOrders (some [fkUser])).database_name
        (createOrders (some [fkUser])).table_name (createOrders (some [fkUser])).schema
        usersOnly).1) ∧
    (DExecute rejectingCatalog (createOrders (some [fkUser])) usersOnly txn0).txn.GetResult =
      ResultType.SUCCESS :=
  ⟨rfl,
    DExecute_createTable_writes_result_once rejectingCatalog (createOrders (some [fkUser]))
      usersOnly txn0 rfl,
    by decide⟩

/-- Creating `users` again fails: only `CreateTable` and `SetResult` are
called, although the request declares a key. -/
theorem DExecute_createTable_not_success_witness :
    createUsersAgain.create_type = CreateType.TABLE ∧
    (specCatalog.CreateTable createUsersAgain.database_name createUsersAgain.table_name
      createUsersAgain.schema usersOnly).1 ≠ ResultType.SUCCESS ∧
    ((DExecute specCatalog createUsersAgain usersOnly txn0).trace =
      [Event.CreateTable createUsersAgain.database_name createUsersAgain.table_name
          createUsersAgain.schema
          (specCatalog.CreateTable createUsersAgain.database_name createUsersAgain.table_name
            createUsersAgain.schema usersOnly).1,
        Event.SetResult
          (specCatalog.CreateTable createUsersAgain.database_name createUsersAgain.table_name
            createUsersAgain.schema usersOnly).1] ∧
    (DExecute specCatalog createUsersAgain usersOnly txn0).catalog =
      (specCatalog.CreateTable createUsersAgain.database_name createUsersAgain.table_name
        createUsersAgain.schema usersOnly).2 ∧
    (DExecute specCatalog createUsersAgain usersOnly txn0).ret = Except.ok false) ∧
    (DExecute specCatalog createUsersAgain usersOnly txn0).catalog = usersOnly :=
  ⟨rfl, by decide,
    DExecute_createTable_not_success specCatalog createUsersAgain usersOnly txn0 rfl
      (by decide),
    by decide⟩

/-- The three keys of P3: two `CreateIndex` calls, for the second and the
third key. -/
theorem DExecute_autoIndex_calls_witness :
    (∀ (db t : String) (s1 : State) (h : TableRef),
      specCatalog.GetTableWithName db t s1 = some h → specCatalog.GetName h = t) ∧
    (createT (some threeKeys)).create_type = CreateType.TABLE ∧
    (specCatalog.CreateTable (createT (some threeKeys)).database_name
      (createT (some threeKeys)).table_name (createT (some threeKeys)).schema usersOnly).1 =
        ResultType.SUCCESS ∧
    (DExecute specCatalog (createT (some threeKeys)) usersOnly txn0).ret = Except.ok false ∧
    ((indexCalls (DExecute specCatalog (createT (some threeKeys)) usersOnly txn0).trace).map
        (fun c => (c.database_name, c.table_name, c.index_attrs, c.unique_keys, c.index_type)) =
      ((declaredKeys (createT (some threeKeys))).filter (fun fk =>
          decide (fk.update_action ≠ FKConstrActionType.NOACTION ∨
            fk.delete_action ≠ FKConstrActionType.NOACTION))).map
        (fun fk => ((createT (some threeKeys)).database_name,
          (createT (some threeKeys)).table_name, fk.fk_column_names, false,
          IndexType.BWTREE)) ∧
    (indexCalls (DExecute specCatalog (createT (some threeKeys)) usersOnly txn0).trace).length =
      (declaredKeys (createT (some threeKeys))).countP (fun fk =>
          decide (fk.update_action ≠ FKConstrActionType.NOACTION ∨
            fk.delete_action ≠ FKConstrActionType.NOACTION)) ∧
    ((∀ fk ∈ declaredKeys (createT (some threeKeys)),
        fk.update_action = FKConstrActionType.NOACTION ∧
        fk.delete_action = FKConstrActionType.NOACTION) →
      indexCalls (DExecute specCatalog (createT (some threeKeys)) usersOnly txn0).trace = [])) ∧
    (indexCalls (DExecute specCatalog (createT (some threeKeys)) usersOnly txn0).trace).length =
      2 :=
  ⟨specCatalog_GetName, rfl, by decide, by decide,
    DExecute_autoIndex_calls specCatalog (createT (some threeKeys)) usersOnly txn0
      specCatalog_GetName rfl (by decide) (by decide),
    by decide⟩

/-- The three keys of P3: the calls are named `T_FK_1`, for the second key,
and `T_FK_2`, for the third key. -/
theorem DExecute_autoIndex_names_witness :
    (∀ (db t : String) (s1 : State) (h : TableRef),
      specCatalog.GetTableWithName db t s1 = some h → specCatalog.GetName h = t) ∧
    (createT (some threeKeys)).create_type = CreateType.TABLE ∧
    (specCatalog.CreateTable (createT (some threeKeys)).database_name
      (createT (some threeKeys)).table_name (createT (some threeKeys)).schema usersOnly).1 =
        ResultType.SUCCESS ∧
    (DExecute specCatalog (createT (some threeKeys)) usersOnly txn0).ret = Except.ok false ∧
    ((indexCalls (DExecute specCatalog (createT (some threeKeys)) usersOnly txn0).trace).map
        (fun c => (c.index_attrs, c.index_name)) =
      (((declaredKeys (createT (some threeKeys))).filter (fun fk =>
          decide (fk.update_action ≠ FKConstrActionType.NOACTION ∨
            fk.delete_action ≠ FKConstrActionType.NOACTION))).enumFrom 1).map
        (fun p => (p.2.fk_column_names,
          (createT (some threeKeys)).table_name ++ "_FK_" ++ toString p.1)) ∧
    ((indexCalls (DExecute specCatalog (createT (some threeKeys)) usersOnly txn0).trace).map
      IndexCall.index_name).Nodup) ∧
    (indexCalls (DExecute specCatalog (createT (some threeKeys)) usersOnly txn0).trace).map
        (fun c => (c.index_attrs, c.index_name)) = [(["k2"], "T_FK_1"), (["k3"], "T_FK_2")] :=
  ⟨specCatalog_GetName, rfl, by decide, by decide,
    DExecute_autoIndex_names specCatalog (createT (some threeKeys)) usersOnly txn0
      specCatalog_GetName rfl (by decide) (by decide),
    by decide⟩

/-- The scenario of §8: `orders` gets the key towards `users`, `users` lists
`orders`, and the calls are the prescribed ones. -/
theorem DExecute_registers_foreign_keys_witness :
    (createOrders (some [fkUser])).create_type = CreateType.TABLE ∧
    (CreateTable (createOrders (some [fkUser])).database_name
      (createOrders (some [fkUser])).table_name (createOrders (some [fkUser])).schema
      usersOnly).1 = ResultType.SUCCESS ∧
    (∀ fk ∈ declaredKeys (createOrders (some [fkUser])),
      tableExists (createOrders (some [fkUser])).database_name fk.sink_table_name
        (CreateTable (createOrders (some [fkUser])).database_name
          (createOrders (some [fkUser])).table_name (createOrders (some [fkUser])).schema
          usersOnly).2 = true) ∧
    ((DExecute specCatalog (createOrders (some [fkUser])) usersOnly txn0).ret =
      Except.ok false ∧
    foreignKeysOf (createOrders (some [fkUser])).database_name
      (createOrders (some [fkUser])).table_name
      (DExecute specCatalog (createOrders (some [fkUser])) usersOnly txn0).catalog =
        some (declaredKeys (createOrders (some [fkUser]))) ∧
    (∀ fk ∈ declaredKeys (createOrders (some [fkUser])), ∃ names,
      sourcesOf (createOrders (some [fkUser])).database_name fk.sink_table_name
        (DExecute specCatalog (createOrders (some [fkUser])) usersOnly txn0).catalog =
          some names ∧
      (createOrders (some [fkUser])).table_name ∈ names) ∧
    (DExecute specCatalog (createOrders (some [fkUser])) usersOnly txn0).trace =
      specTableEvents (createOrders (some [fkUser]))) ∧
    sourcesOf DEFAULT_DB_NAME "users"
      (DExecute specCatalog (createOrders (some [fkUser])) usersOnly txn0).catalog =
        some ["orders"] ∧
    indexesOf DEFAULT_DB_NAME "orders"
      (DExecute specCatalog (createOrders (some [fkUser])) usersOnly txn0).catalog =
        some [⟨"orders_FK_1", ["user_id"], false, IndexType.BWTREE⟩] :=
  ⟨rfl, by decide, by decide,
    DExecute_registers_foreign_keys (createOrders (some [fkUser])) usersOnly txn0 rfl
      (by decide) (by decide),
    by decide, by decide⟩

/-- Three keys towards `users`: three registrations, one entry. -/
theorem DExecute_registers_source_once_witness :
    (createT (some threeKeys)).create_type = CreateType.TABLE ∧
    (CreateTable (createT (some threeKeys)).database_name
      (createT (some threeKeys)).table_name (createT (some threeKeys)).schema
      usersOnly).1 = ResultType.SUCCESS ∧
    (∀ fk ∈ declaredKeys (createT (some threeKeys)),
      tableExists (createT (some threeKeys)).database_name fk.sink_table_name
        (CreateTable (createT (some threeKeys)).database_name
          (createT (some threeKeys)).table_name (createT (some threeKeys)).schema
          usersOnly).2 = true) ∧
    WellFormed usersOnly ∧
    2 ≤ (declaredKeys (createT (some threeKeys))).countP
      (fun fk => decide (fk.sink_table_name = "users")) ∧
    ((sourcesOf (createT (some threeKeys)).database_name "users"
        (DExecute specCatalog (createT (some threeKeys)) usersOnly txn0).catalog).map
        (fun names => names.count (createT (some threeKeys)).table_name) = some 1 ∧
    (DExecute specCatalog (createT (some threeKeys)) usersOnly txn0).trace.count
        (Event.RegisterForeignKeySource ⟨(createT (some threeKeys)).database_name, "users"⟩
          (createT (some threeKeys)).table_name) =
      (declaredKeys (createT (some threeKeys))).countP
        (fun fk => decide (fk.sink_table_name = "users"))) ∧
    sourcesOf DEFAULT_DB_NAME "users"
      (DExecute specCatalog (createT (some threeKeys)) usersOnly txn0).catalog = some ["T"] :=
  ⟨rfl, by decide, by decide, by decide, by decide,
    DExecute_registers_source_once (createT (some threeKeys)) usersOnly txn0 "users" rfl
      (by decide) (by decide) (by decide) (by decide),
    by decide⟩

/-- An index request carrying another database name: the one call goes to
the default database. -/
theorem DExecute_createIndex_witness :
    createUsersIndex.create_type = CreateType.INDEX ∧
    ((DExecute specCatalog createUsersIndex usersOnly txn0).trace =
      [Event.CreateIndex DEFAULT_DB_NAME createUsersIndex.table_name
          createUsersIndex.index_attrs createUsersIndex.index_name
          createUsersIndex.unique_flag createUsersIndex.index_type
          (specCatalog.CreateIndex DEFAULT_DB_NAME createUsersIndex.table_name
            createUsersIndex.index_attrs createUsersIndex.index_name
            createUsersIndex.unique_flag createUsersIndex.index_type usersOnly).1,
        Event.SetResult
          (specCatalog.CreateIndex DEFAULT_DB_NAME createUsersIndex.table_name
            createUsersIndex.index_attrs createUsersIndex.index_name
            createUsersIndex.unique_flag createUsersIndex.index_type usersOnly).1] ∧
    (DExecute specCatalog createUsersIndex usersOnly txn0).txn.GetResult =
      (specCatalog.CreateIndex DEFAULT_DB_NAME createUsersIndex.table_name
        createUsersIndex.index_attrs createUsersIndex.index_name
        createUsersIndex.unique_flag createUsersIndex.index_type usersOnly).1 ∧
    (DExecute specCatalog createUsersIndex usersOnly txn0).catalog =
      (specCatalog.CreateIndex DEFAULT_DB_NAME createUsersIndex.table_name
        createUsersIndex.index_attrs createUsersIndex.index_name
        createUsersIndex.unique_flag createUsersIndex.index_type usersOnly).2 ∧
    (DExecute specCatalog createUsersIndex usersOnly txn0).ret = Except.ok false) ∧
    (DExecute specCatalog createUsersIndex usersOnly txn0).trace =
      [Event.CreateIndex "default_database" "users" ["id"] "users_id" true (IndexType.OTHER 1)
          ResultType.SUCCESS,
        Event.SetResult ResultType.SUCCESS] :=
  ⟨rfl, DExecute_createIndex specCatalog createUsersIndex usersOnly txn0 rfl, by decide⟩

/-- Claim C8, on the code: the request of §8 on a catalog whose index creation
is rejected.  Table creation succeeds, the key triggers auto-indexing and the
`CreateIndex` call for the key returns FAILURE; the executor drops that value
(line 79), so `DExecute` raises nothing: it completes, returning `false`,
with the transaction result SUCCESS.  The failure the claim requires to reach
the caller is lost, whereas the results of the calls of lines 51-53 and
107-110 are kept and reported. -/
theorem autoIndex_failure_not_raised :
    (createOrders (some [fkUser])).create_type = CreateType.TABLE ∧
    (rejectingCatalog.CreateTable DEFAULT_DB_NAME "orders"
      (createOrders (some [fkUser])).schema usersOnly).1 = ResultType.SUCCESS ∧
    needsIndex fkUser = true ∧
    Event.CreateIndex "default_database" "orders" ["user_id"] "orders_FK_1" false
        IndexType.BWTREE ResultType.FAILURE ∈
      (DExecute rejectingCatalog (createOrders (some [fkUser])) usersOnly txn0).trace ∧
    (DExecute rejectingCatalog (createOrders (some [fkUser])) usersOnly txn0).ret =
      Except.ok false ∧
    (DExecute rejectingCatalog (createOrders (some [fkUser])) usersOnly txn0).txn.GetResult =
      ResultType.SUCCESS := by
  decide

/-- The request of §8 completes, and the value returned is `false`. -/
theorem DExecute_returns_false_witness :
    (DExecute specCatalog (createOrders (some [fkUser])) usersOnly txn0).ret =
      Except.ok false ∧ false = false :=
  ⟨by decide,
    DExecute_returns_false specCatalog (createOrders (some [fkUser])) usersOnly txn0 false
      (by decide)⟩

/-- Keys towards `users`, `accounts` (missing) and `users`: the run stops at
the second key, whose record is attached all the same. -/
theorem DExecute_missing_sink_witness :
    createOrders3.create_type = CreateType.TABLE ∧
    (CreateTable createOrders3.database_name createOrders3.table_name createOrders3.schema
      usersOnly).1 = ResultType.SUCCESS ∧
    createOrders3.foreign_keys = some ([fkUser] ++ fkAccount :: [fkUser]) ∧
    (∀ k ∈ [fkUser],
      tableExists createOrders3.database_name k.sink_table_name
        (CreateTable createOrders3.database_name createOrders3.table_name
          createOrders3.schema usersOnly).2 = true) ∧
    tableExists createOrders3.database_name fkAccount.sink_table_name
      (CreateTable createOrders3.database_name createOrders3.table_name
        createOrders3.schema usersOnly).2 = false ∧
    ((DExecute specCatalog createOrders3 usersOnly txn0).ret =
      Except.error (ExecError.CatalogLookupError fkAccount.sink_table_name) ∧
    (DExecute specCatalog createOrders3 usersOnly txn0).txn.GetResult = ResultType.SUCCESS ∧
    tableExists createOrders3.database_name createOrders3.table_name
      (DExecute specCatalog createOrders3 usersOnly txn0).catalog = true ∧
    (DExecute specCatalog { createOrders3 with foreign_keys := some [fkUser] } usersOnly
      txn0).ret = Except.ok false ∧
    (DExecute specCatalog createOrders3 usersOnly txn0).catalog =
      AddForeignKey ⟨createOrders3.database_name, createOrders3.table_name⟩ fkAccount
        (DExecute specCatalog { createOrders3 with foreign_keys := some [fkUser] } usersOnly
          txn0).catalog ∧
    (DExecute specCatalog createOrders3 usersOnly txn0).trace =
      (DExecute specCatalog { createOrders3 with foreign_keys := some [fkUser] } usersOnly
        txn0).trace ++
        [Event.AddForeignKey ⟨createOrders3.database_name, createOrders3.table_name⟩ fkAccount,
          Event.GetDatabaseWithName createOrders3.database_name true,
          Event.GetTableWithName fkAccount.sink_table_name false] ∧
    foreignKeysOf createOrders3.database_name createOrders3.table_name
      (DExecute specCatalog createOrders3 usersOnly txn0).catalog =
        some ([fkUser] ++ [fkAccount]) ∧
    (∀ k ∈ [fkUser], ∃ names,
      sourcesOf createOrders3.database_name k.sink_table_name
        (DExecute specCatalog createOrders3 usersOnly txn0).catalog = some names ∧
      createOrders3.table_name ∈ names) ∧
    indexesOf createOrders3.database_name createOrders3.table_name
      (DExecute specCatalog createOrders3 usersOnly txn0).catalog =
        some (autoIndexes createOrders3.table_name 1 [fkUser])) ∧
    (DExecute specCatalog createOrders3 usersOnly txn0).ret =
      Except.error (ExecError.CatalogLookupError "accounts") ∧
    indexesOf DEFAULT_DB_NAME "orders"
      (DExecute specCatalog createOrders3 usersOnly txn0).catalog =
        some [⟨"orders_FK_1", ["user_id"], false, IndexType.BWTREE⟩] ∧
    sourcesOf DEFAULT_DB_NAME "users"
      (DExecute specCatalog createOrders3 usersOnly txn0).catalog = some ["orders"] :=
  ⟨rfl, by decide, rfl, by decide, by decide,
    DExecute_missing_sink createOrders3 usersOnly txn0 [fkUser] fkAccount [fkUser] rfl
      (by decide) rfl (by decide) (by decide),
    by decide, by decide, by decide⟩

end Examples

end Peloton
